import Mathlib

/-!
# Verification of the goaccessfmt log-line parser core

Shallow embedding of `src/assets/reference.c` (a single-file extract of the
GoAccess log parser).  C strings are modelled as `List Char` (NUL-free byte
lists; bytes are chars with code < 256), C pointers into a buffer as suffix
lists, and machine integers as `Nat`/`Int` with explicit wrapping where the
width matters; C doubles are rationals kept rounded to the nearest binary64
value (`roundDouble`).  Calls into libc that are not part of the repository
(`strptime`, `strftime`, `localtime_r`, `timegm`, `inet_pton`) are passed in
as an explicit `CLib` record of oracle functions, so every theorem quantifies
over their behaviour; everything else is translated from the C source.
-/

namespace Goaccessfmt

abbrev CStr := List Char

/-- `isspace` of ctype.h for the ASCII range (space, \t, \n, \v, \f, \r). -/
def isspaceC (c : Char) : Bool :=
  c = ' ' || c = '\t' || c = '\n' || c = Char.ofNat 11 || c = Char.ofNat 12 || c = '\r'

/-- `isxdigit` of ctype.h. -/
def isxdigitC (c : Char) : Bool :=
  ('0' ≤ c && c ≤ '9') || ('a' ≤ c && c ≤ 'f') || ('A' ≤ c && c ≤ 'F')

/-- `isdigit` of ctype.h. -/
def isdigitC (c : Char) : Bool := '0' ≤ c && c ≤ '9'

/-- `tolower` of ctype.h under the C locale (ASCII only). -/
def tolowerC (c : Char) : Char :=
  if 'A' ≤ c && c ≤ 'Z' then Char.ofNat (c.toNat + 32) else c

/-- `toupper` of ctype.h under the C locale (ASCII only). -/
def toupperC (c : Char) : Char :=
  if 'a' ≤ c && c ≤ 'z' then Char.ofNat (c.toNat - 32) else c

/-- `strchr(s, c)` as the index of the first occurrence, `none` when absent.
For `c = '\0'` C's `strchr` returns the terminator; callers model this case
separately. -/
def strchrIdx : CStr → Char → Option Nat
  | [], _ => none
  | c :: rest, d =>
    if c = d then some 0 else (strchrIdx rest d).map (· + 1)

/-- Index of the last occurrence of a character (`strrchr`). -/
def strrchrIdx : CStr → Char → Option Nat
  | [], _ => none
  | c :: rest, d =>
    match strrchrIdx rest d with
    | some i => some (i + 1)
    | none => if c = d then some 0 else none

/-- `strpbrk(s, accept)` as the index of the first char of `s` in `accept`. -/
def strpbrkIdx : CStr → CStr → Option Nat
  | [], _ => none
  | c :: rest, acc =>
    if c ∈ acc then some 0 else (strpbrkIdx rest acc).map (· + 1)

/-- `strcspn(s, reject)`: length of the initial segment avoiding `reject`. -/
def strcspnLen : CStr → CStr → Nat
  | [], _ => 0
  | c :: rest, rej => if c ∈ rej then 0 else strcspnLen rest rej + 1

/-- Whether `needle` occurs in `hay` starting at its head. -/
def listLeads : CStr → CStr → Bool
  | [], _ => true
  | _ :: _, [] => false
  | a :: as, b :: bs => a = b && listLeads as bs

/-- `strstr(hay, needle)` as the index of the first occurrence. -/
def strstrIdx : CStr → CStr → Option Nat
  | hay, needle =>
    if listLeads needle hay then some 0
    else match hay with
      | [] => none
      | _ :: rest => (strstrIdx rest needle).map (· + 1)

/-- `strncasecmp(token, m, strlen m) == 0` with `m` given first: `m` is a
case-insensitive prefix of `token` (a token shorter than `m` fails at its
terminator). -/
def strncasecmpEq : CStr → CStr → Bool
  | [], _ => true
  | _ :: _, [] => false
  | a :: as, b :: bs => tolowerC a = tolowerC b && strncasecmpEq as bs

/-- `strcasecmp(a, b) == 0`: full case-insensitive equality. -/
def strcasecmpEq (a b : CStr) : Bool :=
  a.map tolowerC = b.map tolowerC

/-- `ltrim`: strip `isspace` chars from the front (reference.c). -/
def ltrim (s : CStr) : CStr := s.dropWhile isspaceC

/-- `rtrim`: strip `isspace` chars from the end (reference.c). -/
def rtrim (s : CStr) : CStr := (s.reverse.dropWhile isspaceC).reverse

/-- `trim_str`: `rtrim (ltrim s)` (reference.c). -/
def trim_str (s : CStr) : CStr := rtrim (ltrim s)

/-- `strip_newlines`: remove every CR and LF (reference.c). -/
def strip_newlines (s : CStr) : CStr :=
  s.filter (fun c => c ≠ '\r' && c ≠ '\n')

/-- `char_replace`: replace every occurrence of `o` with `n` (reference.c). -/
def char_replace (s : CStr) (o n : Char) : CStr :=
  s.map (fun c => if c = o then n else c)

/-- `strtoupper` (reference.c). -/
def strtoupper (s : CStr) : CStr := s.map toupperC

/-- `count_matches(s, c)` (reference.c): number of occurrences of `c`;
the C do-while also inspects the terminator, which never matches the
non-NUL chars it is called with. -/
def count_matches (s : CStr) (c : Char) : Nat := s.count c

/-- `find_alpha`: advance past leading `isspace` chars (reference.c). -/
def find_alpha (s : CStr) : CStr := s.dropWhile isspaceC

/-- `find_alpha_count`: number of leading `isspace` chars (reference.c). -/
def find_alpha_count (s : CStr) : Nat := (s.takeWhile isspaceC).length

/-- `B16210` of reference.c: value of one hex digit (callers guarantee
`isxdigit`). -/
def b16210 (c : Char) : Nat :=
  if '0' ≤ c && c ≤ '9' then c.toNat - '0'.toNat
  else (toupperC c).toNat - 'A'.toNat + 10

/-- `decode_hex` (reference.c): replace each `%HH` (two hex digits) with the
corresponding byte; malformed escapes are copied literally. -/
def decode_hex : CStr → CStr
  | [] => []
  | '%' :: a :: b :: rest =>
    if isxdigitC a && isxdigitC b then
      Char.ofNat (b16210 a * 16 + b16210 b) :: decode_hex rest
    else '%' :: decode_hex (a :: b :: rest)
  | c :: rest => c :: decode_hex rest

/-! ## Number parsing (strtol / strtoull / strtod models)

The specifier handlers always combine the libc call with the checks
`tkn == end`, `*end != '\0'` and `errno == ERANGE`, i.e. they accept exactly
the fully-consumed in-range parses.  The models below capture the combined
behaviour for base-10 tokens with an optional single sign; other strtod
input forms (exponents, hex floats, inf/nan) do not occur in the tokens the
claims quantify over and are mapped to `none` (caller stores 0). -/

/-- Value of a nonempty all-digit string. -/
def digitsVal (s : CStr) : Nat :=
  s.foldl (fun acc c => acc * 10 + (c.toNat - '0'.toNat)) 0

/-- Nonempty and all decimal digits. -/
def allDigits (s : CStr) : Bool :=
  decide (s ≠ []) && s.all isdigitC

/-- `strtol(s, &e, 10)` (64-bit long) combined with the callers' full-consume
and ERANGE checks. -/
def strtolFull (s : CStr) : Option Int :=
  match s with
  | '-' :: rest =>
    if allDigits rest && decide (digitsVal rest ≤ 2 ^ 63) then
      some (-(digitsVal rest : Int))
    else none
  | '+' :: rest =>
    if allDigits rest && decide (digitsVal rest ≤ 2 ^ 63 - 1) then
      some (digitsVal rest : Int)
    else none
  | _ =>
    if allDigits s && decide (digitsVal s ≤ 2 ^ 63 - 1) then
      some (digitsVal s : Int)
    else none

/-- `strtoull(s, &e, 10)` combined with the callers' full-consume and ERANGE
checks.  A leading minus wraps modulo 2^64 as in C. -/
def strtoullFull (s : CStr) : Option Nat :=
  match s with
  | '-' :: rest =>
    if allDigits rest && decide (digitsVal rest ≤ 2 ^ 64 - 1) then
      some ((2 ^ 64 - digitsVal rest) % 2 ^ 64)
    else none
  | '+' :: rest =>
    if allDigits rest && decide (digitsVal rest ≤ 2 ^ 64 - 1) then
      some (digitsVal rest)
    else none
  | _ =>
    if allDigits s && decide (digitsVal s ≤ 2 ^ 64 - 1) then
      some (digitsVal s)
    else none

/-- Decimal fraction value: integer part and fraction digits as a rational. -/
def decimalVal (intPart fracPart : CStr) : ℚ :=
  (digitsVal intPart : ℚ) + (digitsVal fracPart : ℚ) / ((10 : ℚ) ^ fracPart.length)

/-! ### Binary64 rounding

`serve_secs` in `parse_specifier` is a C `double`: the uint64→double
conversion, `strtod`, and the microsecond multiplications all round to the
nearest binary64 value, ties to even.  That rounding is modelled exactly
over ℚ at the full 53-bit significand.  The exponent extremes of binary64
(subnormals below 2^−1022, overflow at 2^1024) are unreachable by the
in-range values these specifiers compute, except through `strtod` overflow,
which the `ERANGE` check in `strtodFull` maps to `none`. -/

/-- Number of binary digits of `n` (0 for 0); fuel-based so the kernel can
evaluate it (`fuel ≥ n` suffices; the recursion depth is logarithmic). -/
def bitLenAux : Nat → Nat → Nat
  | 0, _ => 0
  | fuel + 1, n => if n = 0 then 0 else bitLenAux fuel (n / 2) + 1

/-- Number of binary digits of `n`: `2 ^ (bitLen n - 1) ≤ n < 2 ^ bitLen n`
for positive `n`. -/
def bitLen (n : Nat) : Nat := bitLenAux n n

/-- Does `2 ^ e ≤ s / b` hold (as rationals; `s`, `b` positive)? -/
def qShiftLE (s b : Nat) (e : Int) : Bool :=
  if 0 ≤ e then decide (b * 2 ^ e.toNat ≤ s) else decide (b ≤ s * 2 ^ (-e).toNat)

/-- `⌊log₂ (s / b)⌋` for positive `s`, `b`. -/
def ilog2Q (s b : Nat) : Int :=
  let e0 : Int := (bitLen s : Int) - (bitLen b : Int)
  if qShiftLE s b e0 then e0 else e0 - 1

/-- Round `numer / denom` to the nearest integer, ties to even. -/
def rnePos (numer denom : Nat) : Nat :=
  let f := numer / denom
  let r := numer % denom
  if 2 * r < denom then f
  else if denom < 2 * r then f + 1
  else if f % 2 = 0 then f else f + 1

/-- Round a rational to the nearest binary64 value: round to nearest, ties
to even, 53-bit significand (the scaled magnitude `|q| / 2 ^ t` lies in
`[2^52, 2^53)` and is rounded to an integer significand). -/
def roundDouble (q : ℚ) : ℚ :=
  if q = 0 then 0
  else
    let s := q.num.natAbs
    let b := q.den
    let t : Int := ilog2Q s b - 52
    let m := rnePos (s * 2 ^ (-t).toNat) (b * 2 ^ t.toNat)
    let mag : ℚ := if 0 ≤ t then ((m * 2 ^ t.toNat : Nat) : ℚ)
      else (m : ℚ) / ((2 ^ (-t).toNat : Nat) : ℚ)
    if q.num < 0 then -mag else mag

/-- `strtod(s, &e)` combined with the callers' full-consume and `ERANGE`
checks, for plain decimal forms `[sign]digits[.digits]`: the nearest
binary64 value of the token's exact decimal value, `none` on overflow
(`ERANGE`, exact magnitude at least `(2^54 − 1)·2^970`, which rounds to
`HUGE_VAL`). -/
def strtodFull (s : CStr) : Option ℚ :=
  let core : CStr → Option ℚ := fun t =>
    let ip := t.takeWhile isdigitC
    match t.drop ip.length with
    | [] => if ip = [] then none else some (digitsVal ip : ℚ)
    | '.' :: frac =>
      if frac.all isdigitC && decide (ip ≠ [] ∨ frac ≠ []) then
        some (decimalVal ip frac)
      else none
    | _ => none
  let exact : Option ℚ := match s with
    | '-' :: rest => (core rest).map (fun q => -q)
    | '+' :: rest => core rest
    | _ => core s
  match exact with
  | none => none
  | some q =>
    if (2 ^ 54 - 1) * 2 ^ 970 ≤ |q| then none else some (roundDouble q)

/-- The C long→int conversion (implementation-defined, two's complement on
every GoAccess target): wrap to 32 bits. -/
def int32OfLong (v : Int) : Int := (v + 2 ^ 31) % 2 ^ 32 - 2 ^ 31

/-- `str2int` (reference.c): `strtol` into a C `int` with −1 as the failure
sentinel; the long→int conversion wraps to 32 bits (two's complement). -/
def str2int (s : CStr) : Int :=
  match strtolFull s with
  | none => -1
  | some v => int32OfLong v

/-- Truncation of a nonnegative IEEE double (modelled as ℚ) stored into a
`uint64_t`; out-of-range conversions (UB in C) are modelled as wrapping. -/
def dblToU64 (q : ℚ) : Nat := (⌊q⌋).toNat % 2 ^ 64

/-! ## HTTP validators -/

/-- Registered entries of the `code_type[]` category array: all six entries
(0xx .. 5xx) are non-NULL. -/
def code_type_nonnull (i : Nat) : Bool := decide (i < 6)

/-- Indices of the non-NULL entries of the `codes[600]` designated-initializer
array in reference.c.  Positional entries continue from the previous
designator, so `STATUS_CODE_463`/`STATUS_CODE_464` actually occupy indices
461/462 (not 463/464), and `STATUS_CODE_529` occupies index 528. -/
def registered_codes : List Nat :=
  [0, 100, 101,
   200, 201, 202, 203, 204, 205, 206, 207, 208, 218,
   300, 301, 302, 303, 304, 305, 307, 308,
   400, 401, 402, 403, 404, 405, 406, 407, 408, 409,
   410, 411, 412, 413, 414, 415, 416, 417, 418, 419,
   420, 421, 422, 423, 424, 426, 428, 429, 430, 431,
   440, 444, 449, 450, 451, 460, 461, 462,
   494, 495, 496, 497, 498, 499,
   500, 501, 502, 503, 504, 505, 509,
   520, 521, 522, 523, 524, 525, 526, 527, 528,
   530, 540, 561, 598, 599]

/-- `codes[i] != NULL`. -/
def codes_nonnull (i : Nat) : Bool := i ∈ registered_codes

/-- `is_valid_http_status` (reference.c): range plus registered category and
registered description. -/
def is_valid_http_status (code : Int) : Bool :=
  decide (0 ≤ code) && decide (code ≤ 599) &&
    code_type_nonnull (code.toNat / 100) && codes_nonnull code.toNat

/-- The `http_methods[]` whitelist, in table order (reference.c). -/
def http_methods : List CStr :=
  ["OPTIONS".toList, "GET".toList, "HEAD".toList, "POST".toList, "PUT".toList,
   "DELETE".toList, "TRACE".toList, "CONNECT".toList, "PATCH".toList,
   "SEARCH".toList,
   "PROPFIND".toList, "PROPPATCH".toList, "MKCOL".toList, "COPY".toList,
   "MOVE".toList, "LOCK".toList, "UNLOCK".toList, "VERSION-CONTROL".toList,
   "REPORT".toList, "CHECKOUT".toList, "CHECKIN".toList, "UNCHECKOUT".toList,
   "MKWORKSPACE".toList, "UPDATE".toList, "LABEL".toList, "MERGE".toList,
   "BASELINE-CONTROL".toList, "MKACTIVITY".toList, "ORDERPATCH".toList]

/-- The `http_protocols[]` whitelist (reference.c). -/
def http_protocols : List CStr :=
  ["HTTP/1.0".toList, "HTTP/1.1".toList, "HTTP/2".toList, "HTTP/3".toList]

/-- `extract_method` (reference.c): first whitelist entry `m` with
`strncasecmp(token, m, strlen m) == 0`, i.e. whose chars are a
case-insensitive prefix of the token. -/
def extract_method (token : CStr) : Option CStr :=
  http_methods.find? (fun m => strncasecmpEq m token)

/-- `extract_protocol` (reference.c): same prefix rule over the protocol
whitelist. -/
def extract_protocol (token : CStr) : Option CStr :=
  http_protocols.find? (fun m => strncasecmpEq m token)

/-- `is_cache_hit` (reference.c). -/
def is_cache_hit (tkn : CStr) : Bool :=
  strcasecmpEq "MISS".toList tkn || strcasecmpEq "BYPASS".toList tkn ||
  strcasecmpEq "EXPIRED".toList tkn || strcasecmpEq "STALE".toList tkn ||
  strcasecmpEq "UPDATING".toList tkn || strcasecmpEq "REVALIDATED".toList tkn ||
  strcasecmpEq "HIT".toList tkn

/-! ## Data model -/

/-- `struct tm` (the fields the parser touches). -/
structure Tm where
  tm_year : Int
  tm_mon : Int
  tm_mday : Int
  tm_hour : Int
  tm_min : Int
  tm_sec : Int
  tm_isdst : Int
  tm_wday : Int
  tm_yday : Int
  deriving Repr, DecidableEq

/-- `GTypeIP` (reference.c). -/
inductive GTypeIP where
  | TYPE_IPINV
  | TYPE_IPV4
  | TYPE_IPV6
  deriving Repr, DecidableEq

/-- The configuration fields of `GConf` the parser core reads. -/
structure GConf where
  date_format : CStr
  time_format : CStr
  date_num_format : CStr
  log_format : CStr
  tz_name : Option CStr
  double_decode : Bool
  append_method : Bool
  append_protocol : Bool
  no_strict_status : Bool
  no_ip_validation : Bool
  is_json_log_format : Bool
  deriving Repr, DecidableEq

/-- Oracles for the libc calls the parser makes that are not part of the
repository.  `strptime` is combined with the caller's trailing-character
check (`end == NULL || *end != '\0'` ↦ `none`); `strftimeF fmt tm` is `none`
when `strftime` returns ≤ 0; `localtime` is `localtime_r` under the ambient
timezone; `tm2time` is `timegm` minus `tm_gmtoff` with −1 ↦ `none`;
`inet_pton4`/`inet_pton6` decide IPv4/IPv6 textual validity. -/
structure CLib where
  strptime : CStr → CStr → Tm → Option Tm
  strftimeF : CStr → Tm → Option CStr
  localtime : Int → Tm
  tm2time : Tm → Option Int
  inet_pton4 : CStr → Bool
  inet_pton6 : CStr → Bool

/-- `GLogItem` (reference.c), restricted to the fields the parser core sets.
`errstr` is carried by the error side of `Except` instead of a field, since
on every error path the caller frees the record. -/
structure GLogItem where
  agent : Option CStr
  date : Option CStr
  host : Option CStr
  keyphrase : Option CStr
  method : Option CStr
  protocol : Option CStr
  qstr : Option CStr
  ref : Option CStr
  req : Option CStr
  status : Int
  time : Option CStr
  vhost : Option CStr
  userid : Option CStr
  cache_status : Option CStr
  site : CStr
  resp_size : Nat
  serve_time : Nat
  numdate : Nat
  type_ip : GTypeIP
  mime_type : Option CStr
  tls_type : Option CStr
  tls_cypher : Option CStr
  dt : Tm
  deriving Repr, DecidableEq

/-- `init_log_item` (reference.c). -/
def init_log_item : GLogItem where
  agent := none
  date := none
  host := none
  keyphrase := none
  method := none
  protocol := none
  qstr := none
  ref := none
  req := none
  status := -1
  time := none
  vhost := none
  userid := none
  cache_status := none
  site := []
  resp_size := 0
  serve_time := 0
  numdate := 0
  type_ip := .TYPE_IPINV
  mime_type := none
  tls_type := none
  tls_cypher := none
  dt := { tm_year := 2000, tm_mon := 1, tm_mday := 1, tm_hour := 0,
          tm_min := 0, tm_sec := 0, tm_isdst := -1, tm_wday := 0, tm_yday := 0 }

/-- Typed parse errors.  `specErr code spec tkn` mirrors `spec_err`
(1 = ERR_SPEC_TOKN_NUL, 2 = ERR_SPEC_TOKN_INV, 3 = ERR_SPEC_SFMT_MIS,
4 = ERR_SPEC_LINE_INV); `missingField` carries the `verify_missing_fields`
message; `genericFail` is a bare nonzero return without a message;
`fatal` is the `FATAL` abort in `set_numeric_date`. -/
inductive PErr where
  | specErr (code : Nat) (spec : Char) (tkn : Option CStr)
  | missingField (msg : CStr)
  | genericFail
  | fatal
  deriving Repr, DecidableEq

/-! ## String utilities over the record -/

/-- `decode_url` (reference.c): one `decode_hex` pass (a second, in-place
pass under `double_decode`), then strip CR/LF and trim; NULL/empty input
gives NULL.  The in-place second pass is equivalent to composing
`decode_hex` because the write cursor never passes the read cursor. -/
def decode_url (cfg : GConf) (url : CStr) : Option CStr :=
  if url = [] then none
  else
    let out := decode_hex url
    let out := if cfg.double_decode then decode_hex out else out
    some (trim_str (strip_newlines out))

/-- `invalid_ipaddr` (reference.c): `(failed, kind)`; IPv4 is tried first. -/
def invalid_ipaddr (clib : CLib) (s : CStr) : Bool × GTypeIP :=
  if s = [] then (true, .TYPE_IPINV)
  else if clib.inet_pton4 s then (false, .TYPE_IPV4)
  else if clib.inet_pton6 s then (false, .TYPE_IPV6)
  else (true, .TYPE_IPINV)

/-- `extract_keyphrase` (reference.c): Google search/cache/translate
keyphrase extraction; `none` is the silent-failure return 1. -/
def extract_keyphrase (cfg : GConf) (ref : CStr) : Option CStr :=
  if (strstrIdx ref "http://www.google.".toList).isNone &&
     (strstrIdx ref "http://webcache.googleusercontent.com/".toList).isNone &&
     (strstrIdx ref "http://translate.googleusercontent.com/".toList).isNone &&
     (strstrIdx ref "https://www.google.".toList).isNone &&
     (strstrIdx ref "https://webcache.googleusercontent.com/".toList).isNone &&
     (strstrIdx ref "https://translate.googleusercontent.com/".toList).isNone then
    none
  else if (strstrIdx ref "/+&".toList).isSome then none
  else
    let step : Option (CStr × Bool) :=
      match strstrIdx ref "/+".toList with
      | some i => some (ref.drop (i + 2), false)
      | none =>
        match strstrIdx ref "q=cache:".toList with
        | some i =>
          let r := ref.drop i
          match strchrIdx r '+' with
          | some j => some (r.drop (j + 1), false)
          | none => some (r, false)
        | none =>
          match strstrIdx ref "&q=".toList with
          | some i => some (ref.drop (i + 3), false)
          | none =>
            match strstrIdx ref "?q=".toList with
            | some i => some (ref.drop (i + 3), false)
            | none =>
              match strstrIdx ref "%26q%3D".toList with
              | some i => some (ref.drop (i + 7), true)
              | none =>
                match strstrIdx ref "%3Fq%3D".toList with
                | some i => some (ref.drop (i + 7), true)
                | none => none
    match step with
    | none => none
    | some (r, encoded) =>
      let r :=
        if ¬encoded then
          match strchrIdx r '&' with
          | some j => r.take j
          | none => r
        else
          match strstrIdx r "%26".toList with
          | some j => r.take j
          | none => r
      match decode_url cfg r with
      | none => none
      | some referer =>
        if referer = [] then none
        else some (trim_str (char_replace referer '+' ' '))

/-- `extract_referer_site` (reference.c): host part between `//` and the next
`/` or `?`, truncated to `REF_SITE_LEN` (511) bytes; `none` is failure
(the record's `site` buffer is then left unchanged). -/
def extract_referer_site (referer : CStr) : Option CStr :=
  if referer = [] then none
  else
    match strstrIdx referer "//".toList with
    | none => none
    | some i =>
      let begin_ := referer.drop (i + 2)
      if begin_ = [] then none
      else
        let len :=
          match strpbrkIdx begin_ "/?".toList with
          | some e => e
          | none => begin_.length
        if len = 0 then none
        else
          let len := if 511 ≤ len then 511 else len
          some (begin_.take len)

/-- `parse_req` (reference.c): split a combined request line into URL,
method and protocol.  Takes and returns the record's current method and
protocol (they are written only when a method is recognized and the
corresponding `append_*` option is on). -/
def parse_req (cfg : GConf) (line : CStr) (method0 protocol0 : Option CStr) :
    CStr × Option CStr × Option CStr :=
  match extract_method line with
  | none =>
    -- couldn't find a method, so use the whole request line
    let request := line
    match decode_url cfg request with
    | none => (request, method0, protocol0)
    | some dreq => (if dreq = [] then request else dreq, method0, protocol0)
  | some meth =>
    let req := line.drop meth.length
    match strrchrIdx req ' ' with
    | none => ("-".toList, method0, protocol0)
    | some sp =>
      match extract_protocol (req.drop (sp + 1)) with
      | none => ("-".toList, method0, protocol0)
      | some proto =>
        -- rlen = ptr - req after req++: chars 1 .. sp of req
        if sp = 0 then ("-".toList, method0, protocol0)
        else
          let request := (req.drop 1).take sp
          let method1 := if cfg.append_method then some (strtoupper meth) else method0
          let protocol1 := if cfg.append_protocol then some (strtoupper proto) else protocol0
          match decode_url cfg request with
          | none => (request, method1, protocol1)
          | some dreq => (if dreq = [] then request else dreq, method1, protocol1)

/-! ## Token extraction -/

/-- `get_delim` (reference.c): the single delimiter char following the
specifier letter, or empty when the specifier ends the template. -/
def get_delim (pRest : CStr) : CStr :=
  match pRest with
  | [] => []
  | d :: _ => [d]

/-- Loop of `parse_string` (reference.c): returns the cut position at which
`parsed_string` is invoked, or `none`.  `e = none` models the empty delimiter
set (`end = 0x0`, matching only the terminator).  A backslash makes the next
char invisible to the delimiter count; a backslash directly before the
terminator makes the `while (*pch++)` condition read the terminator and
return NULL. -/
def parse_string_pos (e : Option Char) (cnt : Nat) : CStr → Nat → Nat → Option Nat
  | [], _, pos => some pos
  | c :: rest, idx, pos =>
    let idx1 := if e = some c then idx + 1 else idx
    if e = some c ∧ cnt = idx1 then some pos
    else if c = '\\' then
      match rest with
      | [] => none
      | _ :: rest2 => parse_string_pos e cnt rest2 idx1 (pos + 2)
    else parse_string_pos e cnt rest idx1 (pos + 1)

/-- `parse_string` (reference.c): extract the (trimmed) token ending at the
`cnt`-th occurrence of the delimiter and advance the cursor to the cut
position (`parsed_string` with `move_ptr`); NULL when a nonempty delimiter
set never occurs in the input. -/
def parse_string (s : CStr) (delims : CStr) (cnt : Nat) : Option (CStr × CStr) :=
  if delims ≠ [] ∧ (strpbrkIdx s delims).isNone then none
  else
    let e : Option Char := if delims = [] then none else s.find? (· ∈ delims)
    match parse_string_pos e cnt s 0 0 with
    | none => none
    | some pos => some (trim_str (s.take pos), s.drop pos)

/-- `handle_default_case_token` (reference.c): advance the cursor to the next
occurrence of the template char following the specifier; with no following
template char, `strchr(s, '\0')` lands on the terminator (end of input); a
missing delimiter leaves the cursor unchanged. -/
def handle_default_case_token (s : CStr) (pRest : CStr) : CStr :=
  match pRest with
  | [] => []
  | d :: _ =>
    match strchrIdx s d with
    | some i => s.drop i
    | none => s

/-! ## Date/time engine -/

/-- `str_to_time` (reference.c).  `%f`/`%*` parse the token as a µs/ms epoch
and convert through `localtime_r`; otherwise `strptime` must consume the
whole token, followed by the optional timezone round-trip (`tm2time`
failure keeps the `strptime` result). -/
def str_to_time (cfg : GConf) (clib : CLib) (s fmt : CStr) (tm : Tm) (tz : Bool) :
    Option Tm :=
  if s = [] ∨ fmt = [] then none
  else
    let us := fmt = "%f".toList
    let ms := fmt = "%*".toList
    if us ∨ ms then
      match strtoullFull s with
      | none => none
      | some ts =>
        let seconds : Nat := if us then ts / 1000000 else ts / 1000
        some (clib.localtime seconds)
    else
      match clib.strptime s fmt tm with
      | none => none
      | some tm1 =>
        if ¬tz ∨ cfg.tz_name = none then some tm1
        else
          match clib.tm2time tm1 with
          | none => some tm1
          | some t => some (clib.localtime t)

/-- `set_date` (reference.c): format `tm` with `conf.date_num_format`. -/
def set_date (cfg : GConf) (clib : CLib) (tm : Tm) : Option CStr :=
  clib.strftimeF cfg.date_num_format tm

/-- `set_time` (reference.c): format `tm` as `%H:%M:%S`. -/
def set_time (clib : CLib) (tm : Tm) : Option CStr :=
  clib.strftimeF "%H:%M:%S".toList tm

/-- `set_numeric_date` (reference.c): decimal-parse the canonical date into
the `uint32_t` field; −1 from `str2int` is a `FATAL` process abort,
modelled as `none`. -/
def set_numeric_date (date : CStr) : Option Nat :=
  let res := str2int date
  if res = -1 then none else some ((res % 2 ^ 32).toNat)

/-- `set_tm_dt_logitem` (reference.c). -/
def set_tm_dt_logitem (li : GLogItem) (tm : Tm) : GLogItem :=
  { li with dt := { li.dt with tm_year := tm.tm_year, tm_mon := tm.tm_mon,
                               tm_mday := tm.tm_mday } }

/-- `set_tm_tm_logitem` (reference.c). -/
def set_tm_tm_logitem (li : GLogItem) (tm : Tm) : GLogItem :=
  { li with dt := { li.dt with tm_hour := tm.tm_hour, tm_min := tm.tm_min,
                               tm_sec := tm.tm_sec } }

/-! ## Specifier handlers (`parse_specifier`'s switch cases)

Each definition is one `case` arm; all return the updated record and input
cursor, or the error raised by `spec_err`.  The `conf.bandwidth` and
`conf.serve_usecs` statistics flags the C sets with a CAS have no effect on
any record field and are not modelled. -/

abbrev SpecOut := Except PErr (GLogItem × CStr)

/-- `case 'd'` of `parse_specifier`. -/
def parse_spec_d (cfg : GConf) (clib : CLib) (li : GLogItem) (str : CStr)
    (endD pRest : CStr) : SpecOut :=
  if li.date.isSome then .ok (li, handle_default_case_token str pRest)
  else
    let fmtspcs := count_matches cfg.date_format ' '
    let dspc :=
      if fmtspcs ≠ 0 then
        match strchrIdx str ' ' with
        | some i => find_alpha_count (str.drop i)
        | none => 0
      else 0
    match parse_string str endD (Nat.max dspc fmtspcs + 1) with
    | none => .error (.specErr 1 'd' none)
    | some (tkn, str2) =>
      match str_to_time cfg clib tkn cfg.date_format li.dt true with
      | none => .error (.specErr 2 'd' (some tkn))
      | some tm =>
        match set_date cfg clib tm with
        | none => .error (.specErr 2 'd' (some tkn))
        | some ds =>
          match set_numeric_date ds with
          | none => .error .fatal
          | some nd =>
            .ok (set_tm_dt_logitem { li with date := some ds, numdate := nd } tm, str2)

/-- `case 't'` of `parse_specifier`. -/
def parse_spec_t (cfg : GConf) (clib : CLib) (li : GLogItem) (str : CStr)
    (endD pRest : CStr) : SpecOut :=
  if li.time.isSome then .ok (li, handle_default_case_token str pRest)
  else
    match parse_string str endD 1 with
    | none => .error (.specErr 1 't' none)
    | some (tkn, str2) =>
      match str_to_time cfg clib tkn cfg.time_format li.dt true with
      | none => .error (.specErr 2 't' (some tkn))
      | some tm =>
        match set_time clib tm with
        | none => .error (.specErr 2 't' (some tkn))
        | some ts =>
          .ok (set_tm_tm_logitem { li with time := some ts } tm, str2)

/-- `case 'x'` of `parse_specifier` (date and time as one token). -/
def parse_spec_x (cfg : GConf) (clib : CLib) (li : GLogItem) (str : CStr)
    (endD pRest : CStr) : SpecOut :=
  if li.time.isSome ∧ li.date.isSome then .ok (li, handle_default_case_token str pRest)
  else
    match parse_string str endD 1 with
    | none => .error (.specErr 1 'x' none)
    | some (tkn, str2) =>
      match str_to_time cfg clib tkn cfg.time_format li.dt true with
      | none => .error (.specErr 2 'x' (some tkn))
      | some tm =>
        match set_date cfg clib tm with
        | none => .error (.specErr 2 'x' (some tkn))
        | some ds =>
          match set_time clib tm with
          | none => .error (.specErr 2 'x' (some tkn))
          | some ts =>
            match set_numeric_date ds with
            | none => .error .fatal
            | some nd =>
              .ok (set_tm_tm_logitem
                     (set_tm_dt_logitem
                       { li with date := some ds, time := some ts, numdate := nd } tm) tm,
                   str2)

/-- `case 'v'` of `parse_specifier` (virtual host). -/
def parse_spec_v (li : GLogItem) (str : CStr) (endD pRest : CStr) : SpecOut :=
  if li.vhost.isSome then .ok (li, handle_default_case_token str pRest)
  else
    match parse_string str endD 1 with
    | none => .error (.specErr 1 'v' none)
    | some (tkn, str2) => .ok ({ li with vhost := some tkn }, str2)

/-- `case 'e'` of `parse_specifier` (remote user). -/
def parse_spec_e (li : GLogItem) (str : CStr) (endD pRest : CStr) : SpecOut :=
  if li.userid.isSome then .ok (li, handle_default_case_token str pRest)
  else
    match parse_string str endD 1 with
    | none => .error (.specErr 1 'e' none)
    | some (tkn, str2) => .ok ({ li with userid := some tkn }, str2)

/-- `case 'C'` of `parse_specifier` (cache status; tokens outside the
whitelist are discarded without error). -/
def parse_spec_C (li : GLogItem) (str : CStr) (endD pRest : CStr) : SpecOut :=
  if li.cache_status.isSome then .ok (li, handle_default_case_token str pRest)
  else
    match parse_string str endD 1 with
    | none => .error (.specErr 1 'C' none)
    | some (tkn, str2) =>
      if is_cache_hit tkn then .ok ({ li with cache_status := some tkn }, str2)
      else .ok (li, str2)

/-- `case 'h'` of `parse_specifier` (client host, with the RFC 3986 square
bracket form switching the delimiter to `]`). -/
def parse_spec_h (cfg : GConf) (clib : CLib) (li : GLogItem) (str : CStr)
    (endD pRest : CStr) : SpecOut :=
  if li.host.isSome then .ok (li, handle_default_case_token str pRest)
  else
    -- `if (*str[0] == '[' && (*str += 1) && **str) end = "]";`
    let str1 := if str.head? = some '[' then str.tail else str
    let endD1 := if str.head? = some '[' ∧ str.tail ≠ [] then "]".toList else endD
    match parse_string str1 endD1 1 with
    | none => .error (.specErr 1 'h' none)
    | some (tkn, str2) =>
      if cfg.no_ip_validation then
        if tkn = [] then .error (.specErr 2 'h' (some tkn))
        else .ok ({ li with host := some tkn }, str2)
      else
        match invalid_ipaddr clib tkn with
        | (true, _) => .error (.specErr 2 'h' (some tkn))
        | (false, tip) => .ok ({ li with host := some tkn, type_ip := tip }, str2)

/-- `case 'm'` of `parse_specifier` (request method). -/
def parse_spec_m (li : GLogItem) (str : CStr) (endD pRest : CStr) : SpecOut :=
  if li.method.isSome then .ok (li, handle_default_case_token str pRest)
  else
    match parse_string str endD 1 with
    | none => .error (.specErr 1 'm' none)
    | some (tkn, str2) =>
      match extract_method tkn with
      | none => .error (.specErr 2 'm' (some tkn))
      | some meth => .ok ({ li with method := some meth }, str2)

/-- `case 'U'` of `parse_specifier` (request URL, no method/protocol). -/
def parse_spec_U (cfg : GConf) (li : GLogItem) (str : CStr) (endD pRest : CStr) :
    SpecOut :=
  if li.req.isSome then .ok (li, handle_default_case_token str pRest)
  else
    match parse_string str endD 1 with
    | none => .error (.specErr 1 'U' none)
    | some (tkn, str2) =>
      if tkn = [] then .error (.specErr 1 'U' none)
      else
        match decode_url cfg tkn with
        | none => .error (.specErr 2 'U' (some tkn))
        | some d => .ok ({ li with req := some d }, str2)

/-- `case 'q'` of `parse_specifier` (query string; a missing or empty token
is accepted silently). -/
def parse_spec_q (cfg : GConf) (li : GLogItem) (str : CStr) (endD pRest : CStr) :
    SpecOut :=
  if li.qstr.isSome then .ok (li, handle_default_case_token str pRest)
  else
    match parse_string str endD 1 with
    | none => .ok (li, str)
    | some (tkn, str2) =>
      if tkn = [] then .ok (li, str2)
      else
        match decode_url cfg tkn with
        | none => .error (.specErr 2 'q' (some tkn))
        | some d => .ok ({ li with qstr := some d }, str2)

/-- `case 'H'` of `parse_specifier` (request protocol). -/
def parse_spec_P (li : GLogItem) (str : CStr) (endD pRest : CStr) : SpecOut :=
  if li.protocol.isSome then .ok (li, handle_default_case_token str pRest)
  else
    match parse_string str endD 1 with
    | none => .error (.specErr 1 'H' none)
    | some (tkn, str2) =>
      match extract_protocol tkn with
      | none => .error (.specErr 2 'H' (some tkn))
      | some proto => .ok ({ li with protocol := some proto }, str2)

/-- `case 'r'` of `parse_specifier` (combined request line). -/
def parse_spec_r (cfg : GConf) (li : GLogItem) (str : CStr) (endD pRest : CStr) :
    SpecOut :=
  if li.req.isSome then .ok (li, handle_default_case_token str pRest)
  else
    match parse_string str endD 1 with
    | none => .error (.specErr 1 'r' none)
    | some (tkn, str2) =>
      let out := parse_req cfg tkn li.method li.protocol
      .ok ({ li with req := some out.1, method := out.2.1, protocol := out.2.2 }, str2)

/-- `case 's'` of `parse_specifier` (status code).  The C writes
`logitem->status` before validating; on the error paths the caller frees the
record, so only the accepted value is observable. -/
def parse_spec_s (cfg : GConf) (li : GLogItem) (str : CStr) (endD pRest : CStr) :
    SpecOut :=
  if 0 ≤ li.status then .ok (li, handle_default_case_token str pRest)
  else
    match parse_string str endD 1 with
    | none => .error (.specErr 1 's' none)
    | some (tkn, str2) =>
      match strtolFull tkn with
      | none => .error (.specErr 2 's' (some tkn))
      | some n =>
        -- `logitem->status` is an `int`: the `strtol` long narrows to 32
        -- bits before `is_valid_http_status` sees it
        let st := int32OfLong n
        if ¬cfg.no_strict_status ∧ ¬is_valid_http_status st then
          .error (.specErr 2 's' (some tkn))
        else .ok ({ li with status := st }, str2)

/-- `case 'b'` of `parse_specifier` (response size; unparseable → 0). -/
def parse_spec_b (li : GLogItem) (str : CStr) (endD pRest : CStr) : SpecOut :=
  if li.resp_size ≠ 0 then .ok (li, handle_default_case_token str pRest)
  else
    match parse_string str endD 1 with
    | none => .error (.specErr 1 'b' none)
    | some (tkn, str2) =>
      let bandw := (strtoullFull tkn).getD 0
      .ok ({ li with resp_size := bandw }, str2)

/-- `case 'R'` of `parse_specifier` (referrer; missing/empty becomes `-`,
otherwise keyphrase and site extraction are attempted, silently). -/
def parse_spec_R (cfg : GConf) (li : GLogItem) (str : CStr) (endD pRest : CStr) :
    SpecOut :=
  if li.ref.isSome then .ok (li, handle_default_case_token str pRest)
  else
    let out := match parse_string str endD 1 with
      | none => (("-".toList : CStr), str)
      | some (t, s2) => (if t = [] then "-".toList else t, s2)
    let tkn := out.1
    if tkn ≠ "-".toList then
      .ok ({ li with
              ref := some tkn,
              keyphrase := match extract_keyphrase cfg tkn with
                | some k => some k
                | none => li.keyphrase,
              site := match extract_referer_site tkn with
                | some h => h
                | none => li.site }, out.2)
    else .ok ({ li with ref := some tkn }, out.2)

/-- `case 'u'` of `parse_specifier` (user agent; decoded, missing/empty
becomes `-`). -/
def parse_spec_u (cfg : GConf) (li : GLogItem) (str : CStr) (endD pRest : CStr) :
    SpecOut :=
  if li.agent.isSome then .ok (li, handle_default_case_token str pRest)
  else
    match parse_string str endD 1 with
    | some (tkn, str2) =>
      if tkn ≠ [] then .ok ({ li with agent := decode_url cfg tkn }, str2)
      else .ok ({ li with agent := some "-".toList }, str2)
    | none => .ok ({ li with agent := some "-".toList }, str)

/-- `case 'L'` of `parse_specifier` (serve time in ms → µs).  `serve_secs`
is a C `double`: the `strtoull` result rounds on conversion, and the
multiply by `MILS` (1000) rounds again; the store into the `uint64_t` field
truncates. -/
def parse_spec_L (li : GLogItem) (str : CStr) (endD pRest : CStr) : SpecOut :=
  if li.serve_time ≠ 0 then .ok (li, handle_default_case_token str pRest)
  else
    match parse_string str endD 1 with
    | none => .error (.specErr 1 'L' none)
    | some (tkn, str2) =>
      let serve_secs : ℚ := match strtoullFull tkn with
        | none => 0
        | some n => roundDouble (n : ℚ)
      let st := if 0 < serve_secs then dblToU64 (roundDouble (serve_secs * 1000)) else 0
      .ok ({ li with serve_time := st }, str2)

/-- `case 'T'` of `parse_specifier` (serve time in seconds, possibly
fractional, → µs).  `strtod` is used when the token contains a dot,
`strtoull` (whose uint64 result rounds on conversion to the `double`
`serve_secs`) otherwise; the multiply by `SECS` (10^6) rounds again and the
store into the `uint64_t` field truncates. -/
def parse_spec_T (li : GLogItem) (str : CStr) (endD pRest : CStr) : SpecOut :=
  if li.serve_time ≠ 0 then .ok (li, handle_default_case_token str pRest)
  else
    match parse_string str endD 1 with
    | none => .error (.specErr 1 'T' none)
    | some (tkn, str2) =>
      let parsed : Option ℚ :=
        if (strchrIdx tkn '.').isSome then strtodFull tkn
        else match strtoullFull tkn with
          | none => none
          | some n => some (roundDouble (n : ℚ))
      let serve_secs : ℚ := parsed.getD 0
      let st := if 0 < serve_secs then dblToU64 (roundDouble (serve_secs * 1000000)) else 0
      .ok ({ li with serve_time := st }, str2)

/-- `case 'D'` of `parse_specifier` (serve time already in µs). -/
def parse_spec_D (li : GLogItem) (str : CStr) (endD pRest : CStr) : SpecOut :=
  if li.serve_time ≠ 0 then .ok (li, handle_default_case_token str pRest)
  else
    match parse_string str endD 1 with
    | none => .error (.specErr 1 'D' none)
    | some (tkn, str2) =>
      .ok ({ li with serve_time := (strtoullFull tkn).getD 0 }, str2)

/-- `case 'n'` of `parse_specifier` (serve time in ns → µs, integer
division). -/
def parse_spec_n (li : GLogItem) (str : CStr) (endD pRest : CStr) : SpecOut :=
  if li.serve_time ≠ 0 then .ok (li, handle_default_case_token str pRest)
  else
    match parse_string str endD 1 with
    | none => .error (.specErr 1 'n' none)
    | some (tkn, str2) =>
      let n := (strtoullFull tkn).getD 0
      .ok ({ li with serve_time := if 0 < n then n / 1000 else 0 }, str2)

/-- `case 'k'` of `parse_specifier` (TLS cipher). -/
def parse_spec_k (li : GLogItem) (str : CStr) (endD pRest : CStr) : SpecOut :=
  if li.tls_cypher.isSome then .ok (li, handle_default_case_token str pRest)
  else
    match parse_string str endD 1 with
    | none => .error (.specErr 1 'k' none)
    | some (tkn, str2) => .ok ({ li with tls_cypher := some tkn }, str2)

/-- `case 'K'` of `parse_specifier` (TLS protocol version). -/
def parse_spec_K (li : GLogItem) (str : CStr) (endD pRest : CStr) : SpecOut :=
  if li.tls_type.isSome then .ok (li, handle_default_case_token str pRest)
  else
    match parse_string str endD 1 with
    | none => .error (.specErr 1 'K' none)
    | some (tkn, str2) => .ok ({ li with tls_type := some tkn }, str2)

/-- `case 'M'` of `parse_specifier` (MIME type). -/
def parse_spec_M (li : GLogItem) (str : CStr) (endD pRest : CStr) : SpecOut :=
  if li.mime_type.isSome then .ok (li, handle_default_case_token str pRest)
  else
    match parse_string str endD 1 with
    | none => .error (.specErr 1 'M' none)
    | some (tkn, str2) => .ok ({ li with mime_type := some tkn }, str2)

/-- `parse_specifier` (reference.c): dispatch on the specifier letter.
`pRest` is the template tail after the letter; the delimiter buffer
`get_delim` computes in `parse_format` is derived from it. -/
def parse_specifier (cfg : GConf) (clib : CLib) (li : GLogItem) (str : CStr)
    (p : Char) (pRest : CStr) : SpecOut :=
  let endD := get_delim pRest
  if p = 'd' then parse_spec_d cfg clib li str endD pRest
  else if p = 't' then parse_spec_t cfg clib li str endD pRest
  else if p = 'x' then parse_spec_x cfg clib li str endD pRest
  else if p = 'v' then parse_spec_v li str endD pRest
  else if p = 'e' then parse_spec_e li str endD pRest
  else if p = 'C' then parse_spec_C li str endD pRest
  else if p = 'h' then parse_spec_h cfg clib li str endD pRest
  else if p = 'm' then parse_spec_m li str endD pRest
  else if p = 'U' then parse_spec_U cfg li str endD pRest
  else if p = 'q' then parse_spec_q cfg li str endD pRest
  else if p = 'H' then parse_spec_P li str endD pRest
  else if p = 'r' then parse_spec_r cfg li str endD pRest
  else if p = 's' then parse_spec_s cfg li str endD pRest
  else if p = 'b' then parse_spec_b li str endD pRest
  else if p = 'R' then parse_spec_R cfg li str endD pRest
  else if p = 'u' then parse_spec_u cfg li str endD pRest
  else if p = 'L' then parse_spec_L li str endD pRest
  else if p = 'T' then parse_spec_T li str endD pRest
  else if p = 'D' then parse_spec_D li str endD pRest
  else if p = 'n' then parse_spec_n li str endD pRest
  else if p = 'k' then parse_spec_k li str endD pRest
  else if p = 'K' then parse_spec_K li str endD pRest
  else if p = 'M' then parse_spec_M li str endD pRest
  else if p = '~' then .ok (li, find_alpha str)
  else .ok (li, handle_default_case_token str pRest)

/-! ## Special specifier (`~h`, X-Forwarded-For) -/

/-- Scan of `extract_braces` (reference.c): find the unescaped `{...}` span.
`acc` holds (reversed) the chars seen since the last unescaped `{`.  A
backslash marks the next char escaped; the escape flag is only cleared by
ordinary chars, so `\\{` leaves the brace escaped, as in the C. -/
def extract_braces_scan : CStr → Bool → Option CStr → Option (CStr × CStr)
  | [], _, _ => none
  | c :: rest, esc, acc =>
    if c = '\\' then
      extract_braces_scan rest true (acc.map (c :: ·))
    else if c = '{' ∧ ¬esc then
      extract_braces_scan rest esc (some [])
    else if c = '}' ∧ ¬esc then
      match acc with
      | some revSk => if revSk = [] then none else some (revSk.reverse, rest)
      | none => none
    else
      extract_braces_scan rest false (acc.map (c :: ·))

/-- `extract_braces` (reference.c): the reject set between the braces and the
template tail after the closing brace. -/
def extract_braces (p : CStr) : Option (CStr × CStr) :=
  extract_braces_scan p false none

/-- Loop of `set_xff_host` (reference.c).  The `str` and `ptr` cursors
coincide at the start of every iteration (both advance by the same amount),
so a single list suffices; the fuel is bounded by the cursor length plus one
since every iteration consumes at least one char. -/
def set_xff_host_aux (clib : CLib) (skips : CStr) (out : Bool) (skipsLen : Nat) :
    Nat → CStr → Nat → GLogItem → GLogItem
  | 0, _, _, li => li
  | _ + 1, [], _, li => li
  | fuel + 1, c :: rest, idx, li =>
    let s := c :: rest
    let len := strcspnLen s skips
    if len = 0 then
      set_xff_host_aux clib skips out skipsLen fuel rest (idx + 1) li
    else if idx < skipsLen ∧ li.host.isSome then li
    else
      let tkn := trim_str (s.take len)
      let iv := invalid_ipaddr clib tkn
      if li.host.isSome ∧ iv.1 then li
      else
        let li1 :=
          if li.host.isNone ∧ ¬iv.1 then { li with host := some tkn, type_ip := iv.2 }
          else li
        if li1.host.isSome ∧ out then li1
        else set_xff_host_aux clib skips out skipsLen fuel (s.drop len) 0 li1

/-- `set_xff_host` (reference.c): scan the XFF field splitting on the reject
set; the first valid IP becomes the host.  Returns the updated record; the
C return value is `host == NULL` on the result. -/
def set_xff_host (clib : CLib) (li : GLogItem) (s : CStr) (skips : CStr)
    (out : Bool) : GLogItem :=
  set_xff_host_aux clib skips out skips.length (s.length + 1) s 0 li

/-- `find_xff_host` (reference.c).  `none`: braces missing (the caller turns
this into a specifier error).  Otherwise `(res, li', str', fmtRest)` where
`res` is true when no host was found, and `fmtRest` is the template after
the closing brace (the C leaves `p` on that char; the caller's loop `p++`
then skips it). -/
def find_xff_host (clib : CLib) (li : GLogItem) (str : CStr) (p : CStr) :
    Option (Bool × GLogItem × CStr × CStr) :=
  match extract_braces p with
  | none => none
  | some (skips, rest) =>
    match rest with
    | c :: _ =>
      if c ∉ skips ∧ (strchrIdx str c).isSome then
        match parse_string str [c] 1 with
        | none => some (false, li, str, rest)
        | some (extract, str1) =>
          let li1 := set_xff_host clib li extract skips true
          some (li1.host.isNone, li1, str1.drop 1, rest)
      else
        let li1 := set_xff_host clib li str skips false
        some (li1.host.isNone, li1, str, rest)
    | [] =>
      -- `**p` is the terminator: `strchr(skips, '\0')` is non-NULL, so the
      -- hard-delimiter branch is not taken
      let li1 := set_xff_host clib li str skips false
      some (li1.host.isNone, li1, str, rest)

/-! ## The tokenizer loop (`parse_format`) -/

/-- Loop of `parse_format` (reference.c), with fuel: every step consumes at
least one template char, so `fmt.length + 1` fuel means the fuel-exhausted
branch (which returns the record unchanged) is never taken.  The branches
follow the C exactly: `%` and (outside a pending specifier) `~` only set
state; an exhausted input raises `ERR_SPEC_LINE_INV` (0x4) before anything
else; a `\n` cursor returns success; then special specifiers, ordinary
specifiers (the `perc && isspace` arm of the C is unreachable because the
previous arm already catches `perc != 0`), and literals, which skip one
input char. -/
def parse_format_aux (cfg : GConf) (clib : CLib) :
    Nat → CStr → CStr → GLogItem → Nat → Nat → Except PErr GLogItem
  | 0, _, _, li, _, _ => .ok li
  | _ + 1, [], _, li, _, _ => .ok li
  | fuel + 1, p :: ps, str, li, perc, tilde =>
    if p = '%' then parse_format_aux cfg clib fuel ps str li (perc + 1) tilde
    else if p = '~' ∧ perc = 0 then parse_format_aux cfg clib fuel ps str li perc (tilde + 1)
    else if str = [] then .error (.specErr 4 '-' none)
    else if str.head? = some '\n' then .ok li
    else if tilde ≠ 0 then
      if p = 'h' then
        match find_xff_host clib li str (p :: ps) with
        | none => .error (.specErr 1 'h' none)
        | some (res, li1, str1, fmtRest) =>
          if res then .error (.specErr 1 'h' none)
          else parse_format_aux cfg clib fuel (fmtRest.drop 1) str1 li1 perc 0
      else parse_format_aux cfg clib fuel ps str li perc 0
    else if perc ≠ 0 then
      match parse_specifier cfg clib li str p ps with
      | .error e => .error e
      | .ok (li1, str1) => parse_format_aux cfg clib fuel ps str1 li1 0 tilde
    else parse_format_aux cfg clib fuel ps str.tail li perc tilde

/-- `parse_format` (reference.c): a NULL/empty input line fails outright,
otherwise run the template loop. -/
def parse_format (cfg : GConf) (clib : CLib) (li : GLogItem) (str lfmt : CStr) :
    Except PErr GLogItem :=
  if str = [] then .error .genericFail
  else parse_format_aux cfg clib (lfmt.length + 1) lfmt str li 0 0

/-! ## Record assembly (`parse_line`) -/

/-- `valid_line` (reference.c): NULL/empty lines and comment lines are
soft-ignored. -/
def valid_line (line : CStr) : Bool :=
  match line with
  | [] => true
  | c :: _ => c = '#' || c = '\n'

/-- `verify_missing_fields` (reference.c): the first missing required field's
message, if any. -/
def verify_missing_fields (li : GLogItem) : Option CStr :=
  if li.host = none then some "IPv4/6 is required.".toList
  else if li.date = none then some "A valid date is required.".toList
  else if li.req = none then some "A request is required.".toList
  else none

/-- Result of `parse_line`: soft-ignored (−1), failed (record freed, error
code returned), or parsed. -/
inductive ParseOut where
  | ignored
  | failed (e : PErr)
  | parsed (li : GLogItem)
  deriving Repr, DecidableEq

/-- The tokenization step of `parse_line`: document mode hands the line to
the JSON-event walk (`parse_json_format`), whose UTF-8/event internals no
claim depends on; it is therefore passed in as the oracle `jfp`
(its per-scalar callback `parse_json_specifier` is modelled below).
Template mode runs `parse_format` on `conf.log_format`. -/
def tokenize_line (cfg : GConf) (clib : CLib)
    (jfp : GLogItem → CStr → Except PErr GLogItem) (li : GLogItem)
    (line : CStr) : Except PErr GLogItem :=
  if cfg.is_json_log_format then jfp li line
  else parse_format cfg clib li line cfg.log_format

/-- `parse_line` (reference.c): soft-ignore, tokenize a fresh record, check
required fields, default the agent to `-`. -/
def parse_line (cfg : GConf) (clib : CLib)
    (jfp : GLogItem → CStr → Except PErr GLogItem) (line : CStr) : ParseOut :=
  if valid_line line then .ignored
  else
    match tokenize_line cfg clib jfp init_log_item line with
    | .error e => .failed e
    | .ok li =>
      match verify_missing_fields li with
      | some msg => .failed (.missingField msg)
      | none =>
        .parsed { li with agent := some (li.agent.getD "-".toList) }

/-- `parse_json_specifier` (reference.c): the per-scalar callback of document
mode.  `dict` stands for the `ht_get_json_logfmt` hash-table lookup (the
format dictionary built at configuration time); a NULL key or value, an
empty value, or an unmapped key are all skipped without touching the
record. -/
def parse_json_specifier (cfg : GConf) (clib : CLib) (dict : CStr → Option CStr)
    (li : GLogItem) (key : Option CStr) (str : Option CStr) :
    Except PErr GLogItem :=
  match key, str with
  | none, _ => .ok li
  | _, none => .ok li
  | some k, some s =>
    if s.length = 0 then .ok li
    else
      match dict k with
      | none => .ok li
      | some spec => parse_format cfg clib li s spec

/-! ## Statement vocabulary -/

/-- The guard each `parse_specifier` case checks before doing any work:
whether the specifier's destination field is already populated (for `%s`
a nonnegative status, for `%b`/`%L`/`%T`/`%D`/`%n` a nonzero counter, for
`%x` both of its two destinations). -/
def dest_already_set (li : GLogItem) (p : Char) : Bool :=
  if p = 'd' then li.date.isSome
  else if p = 't' then li.time.isSome
  else if p = 'x' then li.time.isSome && li.date.isSome
  else if p = 'v' then li.vhost.isSome
  else if p = 'e' then li.userid.isSome
  else if p = 'C' then li.cache_status.isSome
  else if p = 'h' then li.host.isSome
  else if p = 'm' then li.method.isSome
  else if p = 'U' then li.req.isSome
  else if p = 'q' then li.qstr.isSome
  else if p = 'H' then li.protocol.isSome
  else if p = 'r' then li.req.isSome
  else if p = 's' then decide (0 ≤ li.status)
  else if p = 'b' then decide (li.resp_size ≠ 0)
  else if p = 'R' then li.ref.isSome
  else if p = 'u' then li.agent.isSome
  else if p = 'L' then decide (li.serve_time ≠ 0)
  else if p = 'T' then decide (li.serve_time ≠ 0)
  else if p = 'D' then decide (li.serve_time ≠ 0)
  else if p = 'n' then decide (li.serve_time ≠ 0)
  else if p = 'k' then li.tls_cypher.isSome
  else if p = 'K' then li.tls_type.isSome
  else if p = 'M' then li.mime_type.isSome
  else false

/-- Template suffixes on which `parse_format` succeeds with the input
exhausted: only `%` markers and, outside a pending specifier, `~` markers
remain. -/
def markers_only : CStr → Nat → Bool
  | [], _ => true
  | p :: ps, perc =>
    if p = '%' then markers_only ps (perc + 1)
    else if p = '~' ∧ perc = 0 then markers_only ps perc
    else false

/-- No decodable `%HH` escape anywhere (the positions `decode_hex` would
rewrite). -/
def no_pct_escape : CStr → Bool
  | [] => true
  | '%' :: a :: b :: rest =>
    !(isxdigitC a && isxdigitC b) && no_pct_escape (a :: b :: rest)
  | _ :: rest => no_pct_escape rest

/-! ## Concrete fixtures for witnesses and counterexamples -/

/-- An explicit libc oracle used in concrete runs: `strptime` recognizes the
two COMBINED-preset token shapes, `strftime` produces the canonical
date/time texts, `inet_pton` accepts two sample IPv4 addresses. -/
def clibFix : CLib where
  strptime := fun s fmt tm =>
    if fmt = "%d/%b/%Y".toList ∧ s = "11/Jun/2023".toList then
      some { tm with tm_year := 123, tm_mon := 5, tm_mday := 11 }
    else if fmt = "%T".toList ∧ s = "01:23:45".toList then
      some { tm with tm_hour := 1, tm_min := 23, tm_sec := 45 }
    else none
  strftimeF := fun fmt _ =>
    if fmt = "%H:%M:%S".toList then some "01:23:45".toList
    else some "20230611".toList
  localtime := fun _ => init_log_item.dt
  tm2time := fun _ => some 0
  inet_pton4 := fun s => s = "1.2.3.4".toList || s = "114.5.1.4".toList
  inet_pton6 := fun _ => false

/-- Base fixture configuration: template mode, epoch date format, strict
checks off. -/
def cfgBase : GConf where
  date_format := "%f".toList
  time_format := "%f".toList
  date_num_format := "%Y%m%d".toList
  log_format := "%h %d %U %s".toList
  tz_name := none
  double_decode := false
  append_method := true
  append_protocol := true
  no_strict_status := true
  no_ip_validation := true
  is_json_log_format := false

/-- `cfgBase` with strict status checking. -/
def cfgStrict : GConf := { cfgBase with no_strict_status := false }

/-- `cfgBase` with double URL-decoding. -/
def cfgDouble : GConf := { cfgBase with double_decode := true }

/-- The COMBINED (NCSA) preset with its matching date/time formats and full
validation, as `set_log_format_str "COMBINED"` would configure. -/
def cfgCombined : GConf :=
  { cfgBase with
    log_format := "%h %^[%d:%t %^] \"%r\" %s %b \"%R\" \"%u\"".toList
    date_format := "%d/%b/%Y".toList
    time_format := "%T".toList
    no_strict_status := false
    no_ip_validation := false }

/-- Inert JSON-mode oracle for runs in template mode (never invoked when
`is_json_log_format` is false). -/
def jfpId : GLogItem → CStr → Except PErr GLogItem := fun li _ => .ok li

/-- A minimal line for `cfgBase`'s template `%h %d %U %s`. -/
def shortLine : CStr := "1.2.3.4 5 /x 999".toList

/-- The record `parse_format` produces for `shortLine` under
`cfgBase`/`clibFix`: the epoch date format maps the token `5` through
`localtime`/`strftime` to the fixture date, and the lax status check lets
`999` through. -/
def shortItem : GLogItem :=
  { init_log_item with
    host := some "1.2.3.4".toList
    date := some "20230611".toList
    req := some "/x".toList
    status := 999
    numdate := 20230611 }

/-- The record `parse_format` produces for the line `1.2.3.4 5 /x 200`
under `cfgStrict`/`clibFix`: the same as `shortItem` but with the valid
status `200`. -/
def c1WitnessItem : GLogItem := { shortItem with status := 200 }

instance (priority := low) {ε α : Type} [DecidableEq ε] [DecidableEq α] :
    DecidableEq (Except ε α) := fun x y =>
  match x, y with
  | .ok a, .ok b =>
    match decEq a b with
    | isTrue h => isTrue (by rw [h])
    | isFalse h => isFalse (by intro hh; cases hh; exact h rfl)
  | .error a, .error b =>
    match decEq a b with
    | isTrue h => isTrue (by rw [h])
    | isFalse h => isFalse (by intro hh; cases hh; exact h rfl)
  | .ok _, .error _ => isFalse (by intro hh; cases hh)
  | .error _, .ok _ => isFalse (by intro hh; cases hh)

/-! ## General lemmas -/

theorem extract_braces_scan_length :
    ∀ (l : CStr) (esc : Bool) (acc : Option CStr) (sk rest : CStr),
      extract_braces_scan l esc acc = some (sk, rest) → rest.length < l.length := by
  intro l
  induction l with
  | nil => intro esc acc sk rest h; simp [extract_braces_scan] at h
  | cons c cs ih =>
    intro esc acc sk rest h
    unfold extract_braces_scan at h
    split_ifs at h
    · exact Nat.lt_succ_of_lt (ih _ _ _ _ h)
    · exact Nat.lt_succ_of_lt (ih _ _ _ _ h)
    · cases acc with
      | none => simp at h
      | some revSk =>
        simp only at h
        split_ifs at h
        simp only [Option.some.injEq, Prod.mk.injEq] at h
        rw [← h.2]
        exact Nat.lt_succ_self _
    · exact Nat.lt_succ_of_lt (ih _ _ _ _ h)

theorem is_valid_http_status_iff (n : Int) :
    is_valid_http_status n = true ↔
      (0 ≤ n ∧ n ≤ 599 ∧ code_type_nonnull (n.toNat / 100) = true ∧
        codes_nonnull n.toNat = true) := by
  simp [is_valid_http_status, Bool.and_eq_true, decide_eq_true_iff, and_assoc]

/-! Dispatch equations of `parse_specifier` at the letters the claims
mention (each is definitional). -/

theorem parse_specifier_at_s (cfg : GConf) (clib : CLib) (li : GLogItem)
    (str pRest : CStr) :
    parse_specifier cfg clib li str 's' pRest =
      parse_spec_s cfg li str (get_delim pRest) pRest := rfl

theorem parse_specifier_at_h (cfg : GConf) (clib : CLib) (li : GLogItem)
    (str pRest : CStr) :
    parse_specifier cfg clib li str 'h' pRest =
      parse_spec_h cfg clib li str (get_delim pRest) pRest := rfl

theorem parse_specifier_at_m (cfg : GConf) (clib : CLib) (li : GLogItem)
    (str pRest : CStr) :
    parse_specifier cfg clib li str 'm' pRest =
      parse_spec_m li str (get_delim pRest) pRest := rfl

theorem parse_specifier_at_L (cfg : GConf) (clib : CLib) (li : GLogItem)
    (str pRest : CStr) :
    parse_specifier cfg clib li str 'L' pRest =
      parse_spec_L li str (get_delim pRest) pRest := rfl

theorem parse_specifier_at_T (cfg : GConf) (clib : CLib) (li : GLogItem)
    (str pRest : CStr) :
    parse_specifier cfg clib li str 'T' pRest =
      parse_spec_T li str (get_delim pRest) pRest := rfl

theorem parse_specifier_at_D (cfg : GConf) (clib : CLib) (li : GLogItem)
    (str pRest : CStr) :
    parse_specifier cfg clib li str 'D' pRest =
      parse_spec_D li str (get_delim pRest) pRest := rfl

theorem parse_specifier_at_n (cfg : GConf) (clib : CLib) (li : GLogItem)
    (str pRest : CStr) :
    parse_specifier cfg clib li str 'n' pRest =
      parse_spec_n li str (get_delim pRest) pRest := rfl

theorem parse_specifier_at_v (cfg : GConf) (clib : CLib) (li : GLogItem)
    (str pRest : CStr) :
    parse_specifier cfg clib li str 'v' pRest =
      parse_spec_v li str (get_delim pRest) pRest := rfl

theorem parse_specifier_at_d (cfg : GConf) (clib : CLib) (li : GLogItem)
    (str pRest : CStr) :
    parse_specifier cfg clib li str 'd' pRest =
      parse_spec_d cfg clib li str (get_delim pRest) pRest := rfl

theorem parse_specifier_at_t (cfg : GConf) (clib : CLib) (li : GLogItem)
    (str pRest : CStr) :
    parse_specifier cfg clib li str 't' pRest =
      parse_spec_t cfg clib li str (get_delim pRest) pRest := rfl

theorem parse_specifier_at_x (cfg : GConf) (clib : CLib) (li : GLogItem)
    (str pRest : CStr) :
    parse_specifier cfg clib li str 'x' pRest =
      parse_spec_x cfg clib li str (get_delim pRest) pRest := rfl

theorem parse_specifier_at_e (cfg : GConf) (clib : CLib) (li : GLogItem)
    (str pRest : CStr) :
    parse_specifier cfg clib li str 'e' pRest =
      parse_spec_e li str (get_delim pRest) pRest := rfl

theorem parse_specifier_at_C (cfg : GConf) (clib : CLib) (li : GLogItem)
    (str pRest : CStr) :
    parse_specifier cfg clib li str 'C' pRest =
      parse_spec_C li str (get_delim pRest) pRest := rfl

theorem parse_specifier_at_U (cfg : GConf) (clib : CLib) (li : GLogItem)
    (str pRest : CStr) :
    parse_specifier cfg clib li str 'U' pRest =
      parse_spec_U cfg li str (get_delim pRest) pRest := rfl

theorem parse_specifier_at_q (cfg : GConf) (clib : CLib) (li : GLogItem)
    (str pRest : CStr) :
    parse_specifier cfg clib li str 'q' pRest =
      parse_spec_q cfg li str (get_delim pRest) pRest := rfl

theorem parse_specifier_at_P (cfg : GConf) (clib : CLib) (li : GLogItem)
    (str pRest : CStr) :
    parse_specifier cfg clib li str 'H' pRest =
      parse_spec_P li str (get_delim pRest) pRest := rfl

theorem parse_specifier_at_r (cfg : GConf) (clib : CLib) (li : GLogItem)
    (str pRest : CStr) :
    parse_specifier cfg clib li str 'r' pRest =
      parse_spec_r cfg li str (get_delim pRest) pRest := rfl

theorem parse_specifier_at_b (cfg : GConf) (clib : CLib) (li : GLogItem)
    (str pRest : CStr) :
    parse_specifier cfg clib li str 'b' pRest =
      parse_spec_b li str (get_delim pRest) pRest := rfl

theorem parse_specifier_at_R (cfg : GConf) (clib : CLib) (li : GLogItem)
    (str pRest : CStr) :
    parse_specifier cfg clib li str 'R' pRest =
      parse_spec_R cfg li str (get_delim pRest) pRest := rfl

theorem parse_specifier_at_u (cfg : GConf) (clib : CLib) (li : GLogItem)
    (str pRest : CStr) :
    parse_specifier cfg clib li str 'u' pRest =
      parse_spec_u cfg li str (get_delim pRest) pRest := rfl

theorem parse_specifier_at_k (cfg : GConf) (clib : CLib) (li : GLogItem)
    (str pRest : CStr) :
    parse_specifier cfg clib li str 'k' pRest =
      parse_spec_k li str (get_delim pRest) pRest := rfl

theorem parse_specifier_at_K (cfg : GConf) (clib : CLib) (li : GLogItem)
    (str pRest : CStr) :
    parse_specifier cfg clib li str 'K' pRest =
      parse_spec_K li str (get_delim pRest) pRest := rfl

theorem parse_specifier_at_M (cfg : GConf) (clib : CLib) (li : GLogItem)
    (str pRest : CStr) :
    parse_specifier cfg clib li str 'M' pRest =
      parse_spec_M li str (get_delim pRest) pRest := rfl

/-! ## Claim C10 -/

/-- C10: in document (JSON) mode, a scalar event whose string value is empty
is skipped entirely: regardless of the specifier dictionary, no pattern is
applied, no error is raised, and the record is returned unchanged (an empty
JSON value can therefore only surface later as a missing-field error). -/
theorem c10_empty_json_value_skipped (cfg : GConf) (clib : CLib)
    (dict : CStr → Option CStr) (li : GLogItem) (k : Option CStr) :
    parse_json_specifier cfg clib dict li k (some []) = .ok li := by
  cases k <;> simp [parse_json_specifier]

/-! ## Claim C3 -/

/-- C3 (amended): under strict status checking, a `%s` token that `strtol`
parses as the long `n` is accepted — storing the 32-bit narrowing of `n`
(`logitem->status` is an `int`) as the record's status — if and only if
that narrowed value is in 0..=599, its century has a registered category
(`code_type[st/100] != NULL`) and the specific code has a registered
description (`codes[st] != NULL`); otherwise the spec-token-invalid error
referencing `%s` and the token is raised; in particular the token `999`
yields that error.  Acceptance is decided by the narrowed int, not by the
token's integer value (see the counterexample). -/
theorem c3_strict_status_validation :
    (∀ (cfg : GConf) (clib : CLib) (li : GLogItem) (str pRest tkn str2 : CStr)
       (n : Int), cfg.no_strict_status = false → li.status < 0 →
       parse_string str (get_delim pRest) 1 = some (tkn, str2) →
       strtolFull tkn = some n →
       (parse_specifier cfg clib li str 's' pRest =
           .ok ({ li with status := int32OfLong n }, str2)
         ↔ (0 ≤ int32OfLong n ∧ int32OfLong n ≤ 599 ∧
             code_type_nonnull ((int32OfLong n).toNat / 100) = true ∧
             codes_nonnull (int32OfLong n).toNat = true)))
    ∧ (∀ (cfg : GConf) (clib : CLib) (li : GLogItem) (str pRest tkn str2 : CStr)
        (n : Int), cfg.no_strict_status = false → li.status < 0 →
        parse_string str (get_delim pRest) 1 = some (tkn, str2) →
        strtolFull tkn = some n → is_valid_http_status (int32OfLong n) = false →
        parse_specifier cfg clib li str 's' pRest = .error (.specErr 2 's' (some tkn)))
    ∧ parse_specifier cfgStrict clibFix init_log_item "999".toList 's' [] =
        .error (.specErr 2 's' (some "999".toList)) := by
  refine ⟨?_, ?_, by decide⟩
  · intro cfg clib li str pRest tkn str2 n hstrict hlt hps hn
    rw [← is_valid_http_status_iff, parse_specifier_at_s]
    unfold parse_spec_s
    rw [if_neg (not_le.mpr hlt), hps]
    dsimp only
    rw [hn]
    dsimp only
    by_cases hv : is_valid_http_status (int32OfLong n) = true
    · rw [if_neg (by simp [hv])]
      simp [hv]
    · rw [if_pos ⟨by simp [hstrict], by simpa using hv⟩]
      simp [hv]
  · intro cfg clib li str pRest tkn str2 n hstrict hlt hps hn hv
    rw [parse_specifier_at_s]
    unfold parse_spec_s
    rw [if_neg (not_le.mpr hlt), hps]
    dsimp only
    rw [hn]
    dsimp only
    rw [if_pos ⟨by simp [hstrict], by simp [hv]⟩]

/-- Witness for C3 at a concrete accepted token: `%s` on `200`. -/
theorem c3_strict_status_validation_witness :
    parse_specifier cfgStrict clibFix init_log_item "200".toList 's' [] =
        .ok ({ init_log_item with status := int32OfLong 200 }, [])
      ↔ (0 ≤ int32OfLong 200 ∧ int32OfLong 200 ≤ 599 ∧
          code_type_nonnull ((int32OfLong 200).toNat / 100) = true ∧
          codes_nonnull (int32OfLong 200).toNat = true) :=
  c3_strict_status_validation.1 cfgStrict clibFix init_log_item "200".toList []
    "200".toList [] 200 rfl (by decide) (by decide) (by decide)

/-- Counterexample for C3 as stated: acceptance is not decided by the
token's integer value — `logitem->status` is an `int`, so the `strtol`
long narrows to 32 bits before `is_valid_http_status` runs.  The token
`4294967296` (= 2^32) is far outside 0..=599, yet under strict checking it
is accepted and stored as status 0 (`codes[0]`, the Caddy entry, is
registered). -/
theorem c3_wide_token_wraps :
    parse_specifier cfgStrict clibFix init_log_item "4294967296".toList 's' [] =
      .ok ({ init_log_item with status := 0 }, []) ∧
    strtolFull "4294967296".toList = some 4294967296 ∧
    ¬((4294967296 : Int) ≤ 599) :=
  ⟨by decide, by decide, by decide⟩

/-! ## Claim C9 -/

/-- C9: even with IP validation disabled, a `%h` specifier whose extracted
token is empty raises the spec-token-invalid error, and a `%h` that
succeeds in setting the host never stores the empty string. -/
theorem c9_h_rejects_empty_token :
    (∀ (cfg : GConf) (clib : CLib) (li : GLogItem) (str pRest str2 : CStr),
       cfg.no_ip_validation = true → li.host = none → str.head? ≠ some '[' →
       parse_string str (get_delim pRest) 1 = some ([], str2) →
       parse_specifier cfg clib li str 'h' pRest = .error (.specErr 2 'h' (some [])))
    ∧ (∀ (cfg : GConf) (clib : CLib) (li : GLogItem) (str pRest str1 : CStr)
        (li1 : GLogItem), cfg.no_ip_validation = true → li.host = none →
        parse_specifier cfg clib li str 'h' pRest = .ok (li1, str1) →
        li1.host ≠ some []) := by
  constructor
  · intro cfg clib li str pRest str2 hval hhost hbr hps
    rw [parse_specifier_at_h]
    unfold parse_spec_h
    rw [if_neg (by simp [hhost])]
    dsimp only
    rw [if_neg hbr, if_neg (by simp [hbr]), hps]
    dsimp only
    rw [if_pos hval, if_pos rfl]
  · intro cfg clib li str pRest str1 li1 hval hhost h
    rw [parse_specifier_at_h] at h
    unfold parse_spec_h at h
    rw [if_neg (by simp [hhost])] at h
    dsimp only at h
    split at h
    · simp at h
    · next tkn str2 heq =>
      rw [if_pos hval] at h
      split_ifs at h with htkn
      simp only [Except.ok.injEq, Prod.mk.injEq] at h
      rw [← h.1]
      simp [htkn]

/-- Witness for C9: `%h` over `,x` with delimiter `,` extracts the empty
token and errors; `%h` over `1.2.3.4 ` succeeds with a nonempty host. -/
theorem c9_h_rejects_empty_token_witness :
    parse_specifier cfgBase clibFix init_log_item ",x".toList 'h' ",z".toList =
      .error (.specErr 2 'h' (some [])) :=
  c9_h_rejects_empty_token.1 cfgBase clibFix init_log_item ",x".toList ",z".toList
    ",x".toList rfl rfl (by decide) (by decide)

/-! ## Claim C4 -/

/-- C4 (amended): a specifier whose destination field is already set leaves
the record unchanged and advances the input cursor to the next occurrence of
the specifier's literal delimiter — the cursor is left ON the delimiter
(which the following template literal then consumes), it is not moved past
it; if the template has no character after the specifier the cursor moves to
end of input, and if the delimiter never occurs the cursor is unchanged.
Only the first occurrence of a repeated specifier populates its field. -/
theorem c4_repeated_specifier_is_skip (cfg : GConf) (clib : CLib)
    (li : GLogItem) (str : CStr) (p : Char) (pRest : CStr)
    (h : dest_already_set li p = true) :
    parse_specifier cfg clib li str p pRest =
      .ok (li, handle_default_case_token str pRest) := by
  unfold dest_already_set at h
  by_cases h1 : p = 'd'
  · subst h1; rw [if_pos rfl] at h
    rw [parse_specifier_at_d]; unfold parse_spec_d; rw [if_pos h]
  rw [if_neg h1] at h
  by_cases h2 : p = 't'
  · subst h2; rw [if_pos rfl] at h
    rw [parse_specifier_at_t]; unfold parse_spec_t; rw [if_pos h]
  rw [if_neg h2] at h
  by_cases h3 : p = 'x'
  · subst h3; rw [if_pos rfl] at h
    rw [parse_specifier_at_x]; unfold parse_spec_x
    rw [if_pos (by simp only [Bool.and_eq_true] at h; exact ⟨h.1, h.2⟩)]
  rw [if_neg h3] at h
  by_cases h4 : p = 'v'
  · subst h4; rw [if_pos rfl] at h
    rw [parse_specifier_at_v]; unfold parse_spec_v; rw [if_pos h]
  rw [if_neg h4] at h
  by_cases h5 : p = 'e'
  · subst h5; rw [if_pos rfl] at h
    rw [parse_specifier_at_e]; unfold parse_spec_e; rw [if_pos h]
  rw [if_neg h5] at h
  by_cases h6 : p = 'C'
  · subst h6; rw [if_pos rfl] at h
    rw [parse_specifier_at_C]; unfold parse_spec_C; rw [if_pos h]
  rw [if_neg h6] at h
  by_cases h7 : p = 'h'
  · subst h7; rw [if_pos rfl] at h
    rw [parse_specifier_at_h]; unfold parse_spec_h; rw [if_pos h]
  rw [if_neg h7] at h
  by_cases h8 : p = 'm'
  · subst h8; rw [if_pos rfl] at h
    rw [parse_specifier_at_m]; unfold parse_spec_m; rw [if_pos h]
  rw [if_neg h8] at h
  by_cases h9 : p = 'U'
  · subst h9; rw [if_pos rfl] at h
    rw [parse_specifier_at_U]; unfold parse_spec_U; rw [if_pos h]
  rw [if_neg h9] at h
  by_cases h10 : p = 'q'
  · subst h10; rw [if_pos rfl] at h
    rw [parse_specifier_at_q]; unfold parse_spec_q; rw [if_pos h]
  rw [if_neg h10] at h
  by_cases h11 : p = 'H'
  · subst h11; rw [if_pos rfl] at h
    rw [parse_specifier_at_P]; unfold parse_spec_P; rw [if_pos h]
  rw [if_neg h11] at h
  by_cases h12 : p = 'r'
  · subst h12; rw [if_pos rfl] at h
    rw [parse_specifier_at_r]; unfold parse_spec_r; rw [if_pos h]
  rw [if_neg h12] at h
  by_cases h13 : p = 's'
  · subst h13; rw [if_pos rfl] at h
    rw [parse_specifier_at_s]; unfold parse_spec_s
    rw [if_pos (of_decide_eq_true h)]
  rw [if_neg h13] at h
  by_cases h14 : p = 'b'
  · subst h14; rw [if_pos rfl] at h
    rw [parse_specifier_at_b]; unfold parse_spec_b
    rw [if_pos (of_decide_eq_true h)]
  rw [if_neg h14] at h
  by_cases h15 : p = 'R'
  · subst h15; rw [if_pos rfl] at h
    rw [parse_specifier_at_R]; unfold parse_spec_R; rw [if_pos h]
  rw [if_neg h15] at h
  by_cases h16 : p = 'u'
  · subst h16; rw [if_pos rfl] at h
    rw [parse_specifier_at_u]; unfold parse_spec_u; rw [if_pos h]
  rw [if_neg h16] at h
  by_cases h17 : p = 'L'
  · subst h17; rw [if_pos rfl] at h
    rw [parse_specifier_at_L]; unfold parse_spec_L
    rw [if_pos (of_decide_eq_true h)]
  rw [if_neg h17] at h
  by_cases h18 : p = 'T'
  · subst h18; rw [if_pos rfl] at h
    rw [parse_specifier_at_T]; unfold parse_spec_T
    rw [if_pos (of_decide_eq_true h)]
  rw [if_neg h18] at h
  by_cases h19 : p = 'D'
  · subst h19; rw [if_pos rfl] at h
    rw [parse_specifier_at_D]; unfold parse_spec_D
    rw [if_pos (of_decide_eq_true h)]
  rw [if_neg h19] at h
  by_cases h20 : p = 'n'
  · subst h20; rw [if_pos rfl] at h
    rw [parse_specifier_at_n]; unfold parse_spec_n
    rw [if_pos (of_decide_eq_true h)]
  rw [if_neg h20] at h
  by_cases h21 : p = 'k'
  · subst h21; rw [if_pos rfl] at h
    rw [parse_specifier_at_k]; unfold parse_spec_k; rw [if_pos h]
  rw [if_neg h21] at h
  by_cases h22 : p = 'K'
  · subst h22; rw [if_pos rfl] at h
    rw [parse_specifier_at_K]; unfold parse_spec_K; rw [if_pos h]
  rw [if_neg h22] at h
  by_cases h23 : p = 'M'
  · subst h23; rw [if_pos rfl] at h
    rw [parse_specifier_at_M]; unfold parse_spec_M; rw [if_pos h]
  rw [if_neg h23] at h
  exact absurd h (by simp)

/-- Witness for C4: a second `%v` with delimiter `:` over `abc:def`. -/
theorem c4_repeated_specifier_is_skip_witness :
    parse_specifier cfgBase clibFix { init_log_item with vhost := some "x".toList }
        "abc:def".toList 'v' ":z".toList =
      .ok ({ init_log_item with vhost := some "x".toList },
           handle_default_case_token "abc:def".toList ":z".toList) :=
  c4_repeated_specifier_is_skip cfgBase clibFix
    { init_log_item with vhost := some "x".toList } "abc:def".toList 'v' ":z".toList
    (by decide)

/-- Counterexample for C4 as stated: the claim says the cursor is advanced
PAST the next occurrence of the delimiter; the skip handler in fact stops ON
the delimiter: a repeated `%v` with delimiter `:` over `abc:def` leaves the
cursor at `:def`, not `def`. -/
theorem c4_cursor_not_past_delimiter :
    parse_specifier cfgBase clibFix { init_log_item with vhost := some "x".toList }
        "abc:def".toList 'v' ":z".toList =
      .ok ({ init_log_item with vhost := some "x".toList }, ":def".toList) ∧
    (":def".toList : CStr) ≠ "def".toList := by
  constructor
  · decide
  · decide

/-! ## Claim C6 -/

/-- C6 (amended): a `%m` token is accepted if and only if some entry of the
fixed whitelist is a case-insensitive PREFIX of the token (`extract_method`
uses `strncasecmp` bounded by the whitelist entry's length, so e.g. `GETTER`
is accepted); the stored method is the first matching whitelist entry, which
is its canonical upper-case form; a token with no matching entry produces
the spec-token-invalid error referencing `%m` and the token. -/
theorem c6_method_prefix_whitelist :
    (∀ (li : GLogItem) (str pRest tkn str2 m : CStr), li.method = none →
       parse_string str (get_delim pRest) 1 = some (tkn, str2) →
       extract_method tkn = some m →
       (parse_spec_m li str (get_delim pRest) pRest = .ok ({ li with method := some m }, str2)
         ∧ m ∈ http_methods ∧ strncasecmpEq m tkn = true))
    ∧ (∀ (li : GLogItem) (str pRest tkn str2 : CStr), li.method = none →
        parse_string str (get_delim pRest) 1 = some (tkn, str2) →
        extract_method tkn = none →
        parse_spec_m li str (get_delim pRest) pRest = .error (.specErr 2 'm' (some tkn)))
    ∧ (∀ tkn : CStr, extract_method tkn = none ↔
        ∀ m ∈ http_methods, strncasecmpEq m tkn = false) := by
  refine ⟨?_, ?_, ?_⟩
  · intro li str pRest tkn str2 m hm hps hx
    unfold parse_spec_m
    rw [if_neg (by simp [hm]), hps]
    dsimp only
    rw [hx]
    exact ⟨rfl, List.mem_of_find?_eq_some hx, by simpa using List.find?_some hx⟩
  · intro li str pRest tkn str2 hm hps hx
    unfold parse_spec_m
    rw [if_neg (by simp [hm]), hps]
    dsimp only
    rw [hx]
  · intro tkn
    unfold extract_method
    rw [List.find?_eq_none]
    constructor
    · intro hx m hmem
      simpa using hx m hmem
    · intro hx m hmem
      simp [hx m hmem]

/-- Witness for C6 at the lower-case token `get`, canonicalized to `GET`. -/
theorem c6_method_prefix_whitelist_witness :
    parse_spec_m init_log_item "get ".toList (get_delim " z".toList) " z".toList =
        .ok ({ init_log_item with method := some "GET".toList }, " ".toList)
      ∧ "GET".toList ∈ http_methods ∧ strncasecmpEq "GET".toList "get".toList = true :=
  c6_method_prefix_whitelist.1 init_log_item "get ".toList " z".toList "get".toList
    " ".toList "GET".toList rfl (by decide) (by decide)

/-- Counterexample for C6 as stated: the token `GETTER` equals no whitelist
entry case-insensitively, yet `%m` accepts it and stores `GET` (prefix
match), instead of producing a spec-token-invalid error. -/
theorem c6_getter_accepted :
    parse_spec_m init_log_item "GETTER".toList [] [] =
        .ok ({ init_log_item with method := some "GET".toList }, []) ∧
    http_methods.all (fun m => !strcasecmpEq m "GETTER".toList) = true := by
  constructor
  · decide
  · decide

/-! ## Claim C2 -/

/-- C2 (amended): once the input line is exhausted, the tokenizer completes
successfully exactly when every remaining template character is a `%` marker
or (outside a pending specifier) a `~` marker; any other remaining template
character — a pending specifier letter OR A PLAIN LITERAL — raises the
incompatible-format (line-invalid, 0x4) error. -/
theorem c2_exhausted_input_behavior (cfg : GConf) (clib : CLib) :
    ∀ (fuel : Nat) (fmt : CStr) (li : GLogItem) (perc tilde : Nat),
      fmt.length < fuel →
      parse_format_aux cfg clib fuel fmt [] li perc tilde =
        (if markers_only fmt perc then .ok li else .error (.specErr 4 '-' none)) := by
  intro fuel
  induction fuel with
  | zero => intro fmt li perc tilde hlt; omega
  | succ fuel ih =>
    intro fmt li perc tilde hlt
    match fmt with
    | [] => simp [parse_format_aux, markers_only]
    | p :: ps =>
      unfold parse_format_aux markers_only
      by_cases h1 : p = '%'
      · rw [if_pos h1, if_pos h1, ih ps li (perc + 1) tilde (by simpa using hlt)]
      · rw [if_neg h1, if_neg h1]
        by_cases h2 : p = '~' ∧ perc = 0
        · rw [if_pos h2, if_pos h2, ih ps li perc (tilde + 1) (by simpa using hlt)]
        · rw [if_neg h2, if_neg h2, if_pos rfl]
          simp

/-- Witness for C2 on a template remainder with a pending specifier letter
(`%h` with the input exhausted) and on a marker-only remainder. -/
theorem c2_exhausted_input_behavior_witness :
    parse_format_aux cfgBase clibFix 3 "%h".toList [] init_log_item 0 0 =
        (if markers_only "%h".toList 0 then .ok init_log_item
         else .error (.specErr 4 '-' none)) ∧
    parse_format_aux cfgBase clibFix 2 "%".toList [] init_log_item 0 0 =
        (if markers_only "%".toList 0 then .ok init_log_item
         else .error (.specErr 4 '-' none)) :=
  ⟨c2_exhausted_input_behavior cfgBase clibFix 3 "%h".toList init_log_item 0 0
     (by decide),
   c2_exhausted_input_behavior cfgBase clibFix 2 "%".toList init_log_item 0 0
     (by decide)⟩

/-- Counterexample for C2 as stated: template `ab` against input `a` — the
input is exhausted with only the literal `b` remaining (the template
contains no `%` at all, so no specifier is expected), yet `parse_format`
raises the line-invalid (0x4) error instead of completing successfully. -/
theorem c2_literal_remainder_raises :
    ("ab".toList.all (fun c => c ≠ '%' && c ≠ '~') = true) ∧
    parse_format cfgBase clibFix init_log_item "a".toList "ab".toList =
      .error (.specErr 4 '-' none) := by
  constructor
  · decide
  · decide

/-! ## Claim C8 -/

/-- C8: when tokenization succeeds, `parse_line` fails exactly when `host`,
`date` or `req` is unset, with the message of the first missing field in the
order host, date, request; otherwise an unset `user_agent` is defaulted to
the literal `-` and the record is returned. -/
theorem c8_required_fields_and_agent_default (cfg : GConf) (clib : CLib)
    (jfp : GLogItem → CStr → Except PErr GLogItem) (line : CStr) (li : GLogItem)
    (h1 : valid_line line = false)
    (h2 : tokenize_line cfg clib jfp init_log_item line = .ok li) :
    parse_line cfg clib jfp line =
      (if li.host = none then .failed (.missingField "IPv4/6 is required.".toList)
       else if li.date = none then
         .failed (.missingField "A valid date is required.".toList)
       else if li.req = none then
         .failed (.missingField "A request is required.".toList)
       else .parsed { li with agent := some (li.agent.getD "-".toList) }) := by
  unfold parse_line
  rw [if_neg (by simp [h1]), h2]
  dsimp only
  unfold verify_missing_fields
  split_ifs <;> rfl

set_option maxHeartbeats 1600000 in
/-- Witness for C8: `shortLine` tokenizes fully; all required fields are
present, so the record is returned with agent defaulted to `-`. -/
theorem c8_required_fields_and_agent_default_witness :
    parse_line cfgBase clibFix jfpId shortLine =
      (if shortItem.host = none then
         .failed (.missingField "IPv4/6 is required.".toList)
       else if shortItem.date = none then
         .failed (.missingField "A valid date is required.".toList)
       else if shortItem.req = none then
         .failed (.missingField "A request is required.".toList)
       else .parsed { shortItem with
                        agent := some (shortItem.agent.getD "-".toList) }) :=
  c8_required_fields_and_agent_default cfgBase clibFix jfpId shortLine
    shortItem (by decide) (by decide)

/-! ## Claim C5 -/

theorem decode_hex_of_no_escape :
    ∀ s : CStr, no_pct_escape s = true → decode_hex s = s := by
  intro s
  induction s using decode_hex.induct with
  | case1 => intro h; rfl
  | case2 a b rest hd ih =>
    intro h
    simp only [no_pct_escape, Bool.and_eq_true] at h
    simp [hd] at h
  | case3 a b rest hd ih =>
    intro h
    simp only [no_pct_escape, Bool.and_eq_true] at h
    rw [decode_hex, if_neg (by simp [hd]), ih h.2]
  | case4 c rest hne ih =>
    intro h
    have hrest : no_pct_escape rest = true := by
      rw [no_pct_escape.eq_def] at h
      split at h
      · rename_i heq
        exact absurd heq (by simp)
      · rename_i a b r heq
        injection heq with e1 e2
        exact (hne a b r e1 e2).elim
      · rename_i hno heq
        injection heq with e1 e2
        rw [e2]
        exact h
    rw [decode_hex.eq_def]
    split
    · rename_i heq
      exact absurd heq (by simp)
    · rename_i a b r heq
      injection heq with e1 e2
      exact (hne a b r e1 e2).elim
    · rename_i hno heq
      injection heq with e1 e2
      rw [← e1, ← e2, ih hrest]

theorem strip_newlines_eq_self (s : CStr)
    (h : ∀ c ∈ s, c ≠ '\r' ∧ c ≠ '\n') : strip_newlines s = s := by
  unfold strip_newlines
  rw [List.filter_eq_self]
  intro a ha
  have := h a ha
  simp [this.1, this.2]

theorem trim_str_eq_rdropWhile (s : CStr) :
    trim_str s = List.rdropWhile isspaceC (List.dropWhile isspaceC s) := rfl

theorem trim_str_idem (s : CStr) : trim_str (trim_str s) = trim_str s := by
  rw [trim_str_eq_rdropWhile, trim_str_eq_rdropWhile]
  have h1 : List.dropWhile isspaceC
      (List.rdropWhile isspaceC (List.dropWhile isspaceC s)) =
      List.rdropWhile isspaceC (List.dropWhile isspaceC s) := by
    rw [List.dropWhile_eq_self_iff]
    intro hl
    have hpre : List.rdropWhile isspaceC (List.dropWhile isspaceC s) <+:
        List.dropWhile isspaceC s := List.rdropWhile_prefix _ _
    have hlen : 0 < (List.dropWhile isspaceC s).length :=
      Nat.lt_of_lt_of_le hl (List.IsPrefix.length_le hpre)
    rw [List.IsPrefix.get_eq hpre hl]
    exact List.dropWhile_get_zero_not isspaceC s hlen
  rw [h1, List.rdropWhile_idempotent]

theorem mem_of_mem_trim_str (a : Char) (s : CStr) (h : a ∈ trim_str s) :
    a ∈ s := by
  rw [trim_str_eq_rdropWhile] at h
  have h1 : a ∈ List.dropWhile isspaceC s :=
    (List.rdropWhile_prefix _ _).sublist.subset h
  exact (List.dropWhile_suffix _).sublist.subset h1

/-- C7 (amended): `decode_url` replaces each `%HH` escape with its byte,
leaves malformed escapes literal, then strips CR/LF and trims whitespace;
it is idempotent on every input whose single-pass decoding is NONEMPTY and
contains no further `%HH` escape (an input decoding to the empty string hits
the NULL-guard on the second pass); and with `double_decode` enabled the
`%HH` pass is applied twice BEFORE the CR/LF strip and trim, which agrees
with decoding twice without the option whenever the first pass produces a
nonempty string unaffected by stripping and trimming, but not in general. -/
theorem c7_decode_url_properties :
    (∀ (cfg : GConf) (x : CStr), cfg.double_decode = false → x ≠ [] →
       decode_url cfg x = some (trim_str (strip_newlines (decode_hex x))))
    ∧ (∀ (cfg : GConf) (x y : CStr), cfg.double_decode = false →
       decode_url cfg x = some y → y ≠ [] → no_pct_escape y = true →
       decode_url cfg y = some y)
    ∧ (∀ (cfg : GConf) (x : CStr), cfg.double_decode = true →
       strip_newlines (decode_hex x) = decode_hex x →
       trim_str (decode_hex x) = decode_hex x →
       decode_hex x ≠ [] →
       decode_url cfg x =
         (decode_url { cfg with double_decode := false } x).bind
           (decode_url { cfg with double_decode := false })) := by
  refine ⟨?_, ?_, ?_⟩
  · intro cfg x hdd hx
    simp [decode_url, hx, hdd]
  · intro cfg x y hdd h hy hne
    unfold decode_url at h ⊢
    rw [hdd] at h
    simp only [Bool.false_eq_true, if_false] at h
    split_ifs at h with hx
    have hyv : trim_str (strip_newlines (decode_hex x)) = y := Option.some.inj h
    rw [if_neg hy]
    dsimp only
    rw [hdd]
    simp only [Bool.false_eq_true, if_false]
    rw [decode_hex_of_no_escape y hne]
    have hmem : ∀ c ∈ y, c ≠ '\r' ∧ c ≠ '\n' := by
      intro c hc
      rw [← hyv] at hc
      have h2 : c ∈ strip_newlines (decode_hex x) := mem_of_mem_trim_str c _ hc
      unfold strip_newlines at h2
      have h3 := (List.mem_filter.mp h2).2
      constructor
      · intro he
        rw [he] at h3
        simp at h3
      · intro he
        rw [he] at h3
        simp at h3
    rw [strip_newlines_eq_self y hmem, ← hyv, trim_str_idem]
  · intro cfg x hdd hstrip htrim hne
    have hx : x ≠ [] := by
      intro he
      rw [he] at hne
      exact hne rfl
    unfold decode_url
    rw [if_neg hx, if_neg hx, hdd]
    simp only [Bool.false_eq_true, if_true, if_false]
    rw [hstrip, htrim]
    simp only [Option.some_bind]
    rw [if_neg hne]

/-- Witness for C7: `a%41b` decodes to `aAb`, on which decoding is
idempotent; `%2541` under `double_decode` decodes to the same result as two
plain decodes. -/
theorem c7_decode_url_properties_witness :
    decode_url cfgBase "a%41b".toList =
        some (trim_str (strip_newlines (decode_hex "a%41b".toList))) ∧
    decode_url cfgBase "aAb".toList = some "aAb".toList ∧
    decode_url cfgDouble "%2541".toList =
      (decode_url { cfgDouble with double_decode := false } "%2541".toList).bind
        (decode_url { cfgDouble with double_decode := false }) :=
  ⟨c7_decode_url_properties.1 cfgBase "a%41b".toList rfl (by decide),
   c7_decode_url_properties.2.1 cfgBase "a%41b".toList "aAb".toList rfl (by decide)
     (by decide) (by decide),
   c7_decode_url_properties.2.2 cfgDouble "%2541".toList rfl (by decide) (by decide)
     (by decide)⟩

/-- Counterexample for C7 as stated: with `double_decode` enabled, decoding
`%%0D41` gives `%41` (the CR produced by the first pass is stripped only
after both hex passes), while decoding twice without the option gives `A`;
moreover `decode(decode(x))` differs from `decode(x)` at `x = %20`, whose
single-pass decoding is the empty string (no further escape), because the
second pass rejects empty input. -/
theorem c7_double_decode_mismatch :
    decode_url cfgDouble "%%0D41".toList = some "%41".toList ∧
    (decode_url cfgBase "%%0D41".toList).bind (decode_url cfgBase) =
      some "A".toList ∧
    some ("%41".toList) ≠ some ("A".toList) ∧
    decode_url cfgBase "%20".toList = some [] ∧
    (decode_url cfgBase "%20".toList).bind (decode_url cfgBase) = none := by
  refine ⟨by decide, by decide, by decide, by decide, by decide⟩

/-! ## Claim C1 -/

theorem is_valid_bounds (s : Int) (h : is_valid_http_status s = true) :
    0 ≤ s ∧ s ≤ 599 := by
  rw [is_valid_http_status_iff] at h
  exact ⟨h.1, h.2.1⟩

/-! Status preservation of every specifier handler other than `%s`. -/

theorem spec_status_d (cfg : GConf) (clib : CLib) (li : GLogItem)
    (str endD pRest str1 : CStr) (li1 : GLogItem)
    (h : parse_spec_d cfg clib li str endD pRest = .ok (li1, str1)) :
    li1.status = li.status := by
  unfold parse_spec_d at h
  by_cases hset : li.date.isSome = true
  · rw [if_pos hset] at h
    simp only [Except.ok.injEq, Prod.mk.injEq] at h
    rw [← h.1]
  · rw [if_neg hset] at h
    repeat' first
      | (simp only [Except.ok.injEq, Prod.mk.injEq] at h
         rw [← h.1]
         try simp [set_tm_dt_logitem, set_tm_tm_logitem])
      | split at h
      | dsimp only at h
      | simp at h

theorem spec_status_t (cfg : GConf) (clib : CLib) (li : GLogItem)
    (str endD pRest str1 : CStr) (li1 : GLogItem)
    (h : parse_spec_t cfg clib li str endD pRest = .ok (li1, str1)) :
    li1.status = li.status := by
  unfold parse_spec_t at h
  by_cases hset : li.time.isSome = true
  · rw [if_pos hset] at h
    simp only [Except.ok.injEq, Prod.mk.injEq] at h
    rw [← h.1]
  · rw [if_neg hset] at h
    split at h
    · simp at h
    · split at h
      · simp at h
      · split at h
        · simp at h
        · simp only [Except.ok.injEq, Prod.mk.injEq] at h
          rw [← h.1]
          simp [set_tm_tm_logitem]

theorem spec_status_x (cfg : GConf) (clib : CLib) (li : GLogItem)
    (str endD pRest str1 : CStr) (li1 : GLogItem)
    (h : parse_spec_x cfg clib li str endD pRest = .ok (li1, str1)) :
    li1.status = li.status := by
  unfold parse_spec_x at h
  by_cases hset : li.time.isSome = true ∧ li.date.isSome = true
  · rw [if_pos hset] at h
    simp only [Except.ok.injEq, Prod.mk.injEq] at h
    rw [← h.1]
  · rw [if_neg hset] at h
    split at h
    · simp at h
    · split at h
      · simp at h
      · split at h
        · simp at h
        · split at h
          · simp at h
          · split at h
            · simp at h
            · simp only [Except.ok.injEq, Prod.mk.injEq] at h
              rw [← h.1]
              simp [set_tm_dt_logitem, set_tm_tm_logitem]

theorem spec_status_v (li : GLogItem) (str endD pRest str1 : CStr) (li1 : GLogItem)
    (h : parse_spec_v li str endD pRest = .ok (li1, str1)) :
    li1.status = li.status := by
  unfold parse_spec_v at h
  by_cases hset : li.vhost.isSome = true
  · rw [if_pos hset] at h
    simp only [Except.ok.injEq, Prod.mk.injEq] at h
    rw [← h.1]
  · rw [if_neg hset] at h
    split at h
    · simp at h
    · simp only [Except.ok.injEq, Prod.mk.injEq] at h
      rw [← h.1]

theorem spec_status_e (li : GLogItem) (str endD pRest str1 : CStr) (li1 : GLogItem)
    (h : parse_spec_e li str endD pRest = .ok (li1, str1)) :
    li1.status = li.status := by
  unfold parse_spec_e at h
  by_cases hset : li.userid.isSome = true
  · rw [if_pos hset] at h
    simp only [Except.ok.injEq, Prod.mk.injEq] at h
    rw [← h.1]
  · rw [if_neg hset] at h
    split at h
    · simp at h
    · simp only [Except.ok.injEq, Prod.mk.injEq] at h
      rw [← h.1]

theorem spec_status_C (li : GLogItem) (str endD pRest str1 : CStr) (li1 : GLogItem)
    (h : parse_spec_C li str endD pRest = .ok (li1, str1)) :
    li1.status = li.status := by
  unfold parse_spec_C at h
  by_cases hset : li.cache_status.isSome = true
  · rw [if_pos hset] at h
    simp only [Except.ok.injEq, Prod.mk.injEq] at h
    rw [← h.1]
  · rw [if_neg hset] at h
    split at h
    · simp at h
    · split_ifs at h <;>
      · simp only [Except.ok.injEq, Prod.mk.injEq] at h
        rw [← h.1]

theorem spec_status_h (cfg : GConf) (clib : CLib) (li : GLogItem)
    (str endD pRest str1 : CStr) (li1 : GLogItem)
    (h : parse_spec_h cfg clib li str endD pRest = .ok (li1, str1)) :
    li1.status = li.status := by
  unfold parse_spec_h at h
  by_cases hset : li.host.isSome = true
  · rw [if_pos hset] at h
    simp only [Except.ok.injEq, Prod.mk.injEq] at h
    rw [← h.1]
  · rw [if_neg hset] at h
    repeat' first
      | (simp only [Except.ok.injEq, Prod.mk.injEq] at h
         rw [← h.1]
         try simp [set_tm_dt_logitem, set_tm_tm_logitem])
      | split at h
      | dsimp only at h
      | simp at h

theorem spec_status_m (li : GLogItem) (str endD pRest str1 : CStr) (li1 : GLogItem)
    (h : parse_spec_m li str endD pRest = .ok (li1, str1)) :
    li1.status = li.status := by
  unfold parse_spec_m at h
  by_cases hset : li.method.isSome = true
  · rw [if_pos hset] at h
    simp only [Except.ok.injEq, Prod.mk.injEq] at h
    rw [← h.1]
  · rw [if_neg hset] at h
    split at h
    · simp at h
    · split at h
      · simp at h
      · simp only [Except.ok.injEq, Prod.mk.injEq] at h
        rw [← h.1]

theorem spec_status_U (cfg : GConf) (li : GLogItem) (str endD pRest str1 : CStr)
    (li1 : GLogItem)
    (h : parse_spec_U cfg li str endD pRest = .ok (li1, str1)) :
    li1.status = li.status := by
  unfold parse_spec_U at h
  by_cases hset : li.req.isSome = true
  · rw [if_pos hset] at h
    simp only [Except.ok.injEq, Prod.mk.injEq] at h
    rw [← h.1]
  · rw [if_neg hset] at h
    repeat' first
      | (simp only [Except.ok.injEq, Prod.mk.injEq] at h
         rw [← h.1]
         try simp [set_tm_dt_logitem, set_tm_tm_logitem])
      | split at h
      | dsimp only at h
      | simp at h

theorem spec_status_q (cfg : GConf) (li : GLogItem) (str endD pRest str1 : CStr)
    (li1 : GLogItem)
    (h : parse_spec_q cfg li str endD pRest = .ok (li1, str1)) :
    li1.status = li.status := by
  unfold parse_spec_q at h
  by_cases hset : li.qstr.isSome = true
  · rw [if_pos hset] at h
    simp only [Except.ok.injEq, Prod.mk.injEq] at h
    rw [← h.1]
  · rw [if_neg hset] at h
    split at h
    · simp only [Except.ok.injEq, Prod.mk.injEq] at h
      rw [← h.1]
    · split_ifs at h
      · simp only [Except.ok.injEq, Prod.mk.injEq] at h
        rw [← h.1]
      · split at h
        · simp at h
        · simp only [Except.ok.injEq, Prod.mk.injEq] at h
          rw [← h.1]

theorem spec_status_P (li : GLogItem) (str endD pRest str1 : CStr) (li1 : GLogItem)
    (h : parse_spec_P li str endD pRest = .ok (li1, str1)) :
    li1.status = li.status := by
  unfold parse_spec_P at h
  by_cases hset : li.protocol.isSome = true
  · rw [if_pos hset] at h
    simp only [Except.ok.injEq, Prod.mk.injEq] at h
    rw [← h.1]
  · rw [if_neg hset] at h
    split at h
    · simp at h
    · split at h
      · simp at h
      · simp only [Except.ok.injEq, Prod.mk.injEq] at h
        rw [← h.1]

theorem spec_status_r (cfg : GConf) (li : GLogItem) (str endD pRest str1 : CStr)
    (li1 : GLogItem)
    (h : parse_spec_r cfg li str endD pRest = .ok (li1, str1)) :
    li1.status = li.status := by
  unfold parse_spec_r at h
  by_cases hset : li.req.isSome = true
  · rw [if_pos hset] at h
    simp only [Except.ok.injEq, Prod.mk.injEq] at h
    rw [← h.1]
  · rw [if_neg hset] at h
    split at h
    · simp at h
    · simp only [Except.ok.injEq, Prod.mk.injEq] at h
      rw [← h.1]

theorem spec_status_s (cfg : GConf) (li : GLogItem) (str endD pRest str1 : CStr)
    (li1 : GLogItem) (hs : cfg.no_strict_status = false)
    (h : parse_spec_s cfg li str endD pRest = .ok (li1, str1)) :
    li1.status = li.status ∨ is_valid_http_status li1.status = true := by
  unfold parse_spec_s at h
  by_cases hset : 0 ≤ li.status
  · rw [if_pos hset] at h
    left
    simp only [Except.ok.injEq, Prod.mk.injEq] at h
    rw [← h.1]
  · rw [if_neg hset] at h
    split at h
    · simp at h
    · split at h
      · simp at h
      · rename_i n hn
        dsimp only at h
        split_ifs at h with h2
        right
        simp only [Except.ok.injEq, Prod.mk.injEq] at h
        rw [← h.1]
        push_neg at h2
        simp only [hs] at h2
        simpa using h2 (by simp)

theorem spec_status_b (li : GLogItem) (str endD pRest str1 : CStr) (li1 : GLogItem)
    (h : parse_spec_b li str endD pRest = .ok (li1, str1)) :
    li1.status = li.status := by
  unfold parse_spec_b at h
  by_cases hset : li.resp_size ≠ 0
  · rw [if_pos hset] at h
    simp only [Except.ok.injEq, Prod.mk.injEq] at h
    rw [← h.1]
  · rw [if_neg hset] at h
    split at h
    · simp at h
    · simp only [Except.ok.injEq, Prod.mk.injEq] at h
      rw [← h.1]

theorem spec_status_R (cfg : GConf) (li : GLogItem) (str endD pRest str1 : CStr)
    (li1 : GLogItem)
    (h : parse_spec_R cfg li str endD pRest = .ok (li1, str1)) :
    li1.status = li.status := by
  unfold parse_spec_R at h
  by_cases hset : li.ref.isSome = true
  · rw [if_pos hset] at h
    simp only [Except.ok.injEq, Prod.mk.injEq] at h
    rw [← h.1]
  · rw [if_neg hset] at h
    dsimp only at h
    split_ifs at h <;>
    · simp only [Except.ok.injEq, Prod.mk.injEq] at h
      rw [← h.1]

theorem spec_status_u (cfg : GConf) (li : GLogItem) (str endD pRest str1 : CStr)
    (li1 : GLogItem)
    (h : parse_spec_u cfg li str endD pRest = .ok (li1, str1)) :
    li1.status = li.status := by
  unfold parse_spec_u at h
  by_cases hset : li.agent.isSome = true
  · rw [if_pos hset] at h
    simp only [Except.ok.injEq, Prod.mk.injEq] at h
    rw [← h.1]
  · rw [if_neg hset] at h
    split at h
    · split_ifs at h <;>
      · simp only [Except.ok.injEq, Prod.mk.injEq] at h
        rw [← h.1]
    · simp only [Except.ok.injEq, Prod.mk.injEq] at h
      rw [← h.1]

theorem spec_status_L (li : GLogItem) (str endD pRest str1 : CStr) (li1 : GLogItem)
    (h : parse_spec_L li str endD pRest = .ok (li1, str1)) :
    li1.status = li.status := by
  unfold parse_spec_L at h
  by_cases hset : li.serve_time ≠ 0
  · rw [if_pos hset] at h
    simp only [Except.ok.injEq, Prod.mk.injEq] at h
    rw [← h.1]
  · rw [if_neg hset] at h
    split at h
    · simp at h
    · simp only [Except.ok.injEq, Prod.mk.injEq] at h
      rw [← h.1]

theorem spec_status_T (li : GLogItem) (str endD pRest str1 : CStr) (li1 : GLogItem)
    (h : parse_spec_T li str endD pRest = .ok (li1, str1)) :
    li1.status = li.status := by
  unfold parse_spec_T at h
  by_cases hset : li.serve_time ≠ 0
  · rw [if_pos hset] at h
    simp only [Except.ok.injEq, Prod.mk.injEq] at h
    rw [← h.1]
  · rw [if_neg hset] at h
    split at h
    · simp at h
    · simp only [Except.ok.injEq, Prod.mk.injEq] at h
      rw [← h.1]

theorem spec_status_D (li : GLogItem) (str endD pRest str1 : CStr) (li1 : GLogItem)
    (h : parse_spec_D li str endD pRest = .ok (li1, str1)) :
    li1.status = li.status := by
  unfold parse_spec_D at h
  by_cases hset : li.serve_time ≠ 0
  · rw [if_pos hset] at h
    simp only [Except.ok.injEq, Prod.mk.injEq] at h
    rw [← h.1]
  · rw [if_neg hset] at h
    split at h
    · simp at h
    · simp only [Except.ok.injEq, Prod.mk.injEq] at h
      rw [← h.1]

theorem spec_status_N (li : GLogItem) (str endD pRest str1 : CStr) (li1 : GLogItem)
    (h : parse_spec_n li str endD pRest = .ok (li1, str1)) :
    li1.status = li.status := by
  unfold parse_spec_n at h
  by_cases hset : li.serve_time ≠ 0
  · rw [if_pos hset] at h
    simp only [Except.ok.injEq, Prod.mk.injEq] at h
    rw [← h.1]
  · rw [if_neg hset] at h
    split at h
    · simp at h
    · simp only [Except.ok.injEq, Prod.mk.injEq] at h
      rw [← h.1]

theorem spec_status_k (li : GLogItem) (str endD pRest str1 : CStr) (li1 : GLogItem)
    (h : parse_spec_k li str endD pRest = .ok (li1, str1)) :
    li1.status = li.status := by
  unfold parse_spec_k at h
  by_cases hset : li.tls_cypher.isSome = true
  · rw [if_pos hset] at h
    simp only [Except.ok.injEq, Prod.mk.injEq] at h
    rw [← h.1]
  · rw [if_neg hset] at h
    split at h
    · simp at h
    · simp only [Except.ok.injEq, Prod.mk.injEq] at h
      rw [← h.1]

theorem spec_status_K (li : GLogItem) (str endD pRest str1 : CStr) (li1 : GLogItem)
    (h : parse_spec_K li str endD pRest = .ok (li1, str1)) :
    li1.status = li.status := by
  unfold parse_spec_K at h
  by_cases hset : li.tls_type.isSome = true
  · rw [if_pos hset] at h
    simp only [Except.ok.injEq, Prod.mk.injEq] at h
    rw [← h.1]
  · rw [if_neg hset] at h
    split at h
    · simp at h
    · simp only [Except.ok.injEq, Prod.mk.injEq] at h
      rw [← h.1]

theorem spec_status_M (li : GLogItem) (str endD pRest str1 : CStr) (li1 : GLogItem)
    (h : parse_spec_M li str endD pRest = .ok (li1, str1)) :
    li1.status = li.status := by
  unfold parse_spec_M at h
  by_cases hset : li.mime_type.isSome = true
  · rw [if_pos hset] at h
    simp only [Except.ok.injEq, Prod.mk.injEq] at h
    rw [← h.1]
  · rw [if_neg hset] at h
    split at h
    · simp at h
    · simp only [Except.ok.injEq, Prod.mk.injEq] at h
      rw [← h.1]

/-- Dispatch: under strict status checking, a successful `parse_specifier`
leaves the status unchanged, or it ran `%s` and stored a validated code. -/
theorem parse_specifier_status (cfg : GConf) (clib : CLib) (li : GLogItem)
    (str : CStr) (p : Char) (pRest str1 : CStr) (li1 : GLogItem)
    (hs : cfg.no_strict_status = false)
    (h : parse_specifier cfg clib li str p pRest = .ok (li1, str1)) :
    li1.status = li.status ∨ is_valid_http_status li1.status = true := by
  by_cases h1 : p = 'd'
  · subst h1; rw [parse_specifier_at_d] at h; exact .inl (spec_status_d _ _ _ _ _ _ _ _ h)
  by_cases h2 : p = 't'
  · subst h2; rw [parse_specifier_at_t] at h; exact .inl (spec_status_t _ _ _ _ _ _ _ _ h)
  by_cases h3 : p = 'x'
  · subst h3; rw [parse_specifier_at_x] at h; exact .inl (spec_status_x _ _ _ _ _ _ _ _ h)
  by_cases h4 : p = 'v'
  · subst h4; rw [parse_specifier_at_v] at h; exact .inl (spec_status_v _ _ _ _ _ _ h)
  by_cases h5 : p = 'e'
  · subst h5; rw [parse_specifier_at_e] at h; exact .inl (spec_status_e _ _ _ _ _ _ h)
  by_cases h6 : p = 'C'
  · subst h6; rw [parse_specifier_at_C] at h; exact .inl (spec_status_C _ _ _ _ _ _ h)
  by_cases h7 : p = 'h'
  · subst h7; rw [parse_specifier_at_h] at h; exact .inl (spec_status_h _ _ _ _ _ _ _ _ h)
  by_cases h8 : p = 'm'
  · subst h8; rw [parse_specifier_at_m] at h; exact .inl (spec_status_m _ _ _ _ _ _ h)
  by_cases h9 : p = 'U'
  · subst h9; rw [parse_specifier_at_U] at h; exact .inl (spec_status_U _ _ _ _ _ _ _ h)
  by_cases h10 : p = 'q'
  · subst h10; rw [parse_specifier_at_q] at h; exact .inl (spec_status_q _ _ _ _ _ _ _ h)
  by_cases h11 : p = 'H'
  · subst h11; rw [parse_specifier_at_P] at h; exact .inl (spec_status_P _ _ _ _ _ _ h)
  by_cases h12 : p = 'r'
  · subst h12; rw [parse_specifier_at_r] at h; exact .inl (spec_status_r _ _ _ _ _ _ _ h)
  by_cases h13 : p = 's'
  · subst h13; rw [parse_specifier_at_s] at h; exact spec_status_s _ _ _ _ _ _ _ hs h
  by_cases h14 : p = 'b'
  · subst h14; rw [parse_specifier_at_b] at h; exact .inl (spec_status_b _ _ _ _ _ _ h)
  by_cases h15 : p = 'R'
  · subst h15; rw [parse_specifier_at_R] at h; exact .inl (spec_status_R _ _ _ _ _ _ _ h)
  by_cases h16 : p = 'u'
  · subst h16; rw [parse_specifier_at_u] at h; exact .inl (spec_status_u _ _ _ _ _ _ _ h)
  by_cases h17 : p = 'L'
  · subst h17; rw [parse_specifier_at_L] at h; exact .inl (spec_status_L _ _ _ _ _ _ h)
  by_cases h18 : p = 'T'
  · subst h18; rw [parse_specifier_at_T] at h; exact .inl (spec_status_T _ _ _ _ _ _ h)
  by_cases h19 : p = 'D'
  · subst h19; rw [parse_specifier_at_D] at h; exact .inl (spec_status_D _ _ _ _ _ _ h)
  by_cases h20 : p = 'n'
  · subst h20; rw [parse_specifier_at_n] at h; exact .inl (spec_status_N _ _ _ _ _ _ h)
  by_cases h21 : p = 'k'
  · subst h21; rw [parse_specifier_at_k] at h; exact .inl (spec_status_k _ _ _ _ _ _ h)
  by_cases h22 : p = 'K'
  · subst h22; rw [parse_specifier_at_K] at h; exact .inl (spec_status_K _ _ _ _ _ _ h)
  by_cases h23 : p = 'M'
  · subst h23; rw [parse_specifier_at_M] at h; exact .inl (spec_status_M _ _ _ _ _ _ h)
  left
  unfold parse_specifier at h
  dsimp only at h
  rw [if_neg h1, if_neg h2, if_neg h3, if_neg h4, if_neg h5, if_neg h6, if_neg h7,
      if_neg h8, if_neg h9, if_neg h10, if_neg h11, if_neg h12, if_neg h13,
      if_neg h14, if_neg h15, if_neg h16, if_neg h17, if_neg h18, if_neg h19,
      if_neg h20, if_neg h21, if_neg h22, if_neg h23] at h
  split_ifs at h <;>
  · simp only [Except.ok.injEq, Prod.mk.injEq] at h
    rw [← h.1]

theorem set_xff_host_aux_status (clib : CLib) (skips : CStr) (out : Bool)
    (skipsLen : Nat) :
    ∀ (fuel : Nat) (s : CStr) (idx : Nat) (li : GLogItem),
      (set_xff_host_aux clib skips out skipsLen fuel s idx li).status = li.status := by
  intro fuel
  induction fuel with
  | zero => intro s idx li; rfl
  | succ fuel ih =>
    intro s idx li
    match s with
    | [] => rfl
    | c :: rest =>
      unfold set_xff_host_aux
      dsimp only
      split_ifs <;> first
        | rfl
        | exact ih _ _ _

theorem set_xff_host_status (clib : CLib) (li : GLogItem) (s skips : CStr)
    (out : Bool) : (set_xff_host clib li s skips out).status = li.status :=
  set_xff_host_aux_status clib skips out skips.length (s.length + 1) s 0 li

theorem find_xff_host_status (clib : CLib) (li : GLogItem) (str p : CStr)
    (res : Bool) (li1 : GLogItem) (str1 fmtRest : CStr)
    (h : find_xff_host clib li str p = some (res, li1, str1, fmtRest)) :
    li1.status = li.status := by
  unfold find_xff_host at h
  split at h
  · simp at h
  · split at h
    · split_ifs at h
      · split at h
        · simp only [Option.some.injEq, Prod.mk.injEq] at h
          rw [← h.2.1]
        · simp only [Option.some.injEq, Prod.mk.injEq] at h
          rw [← h.2.1, set_xff_host_status]
      · simp only [Option.some.injEq, Prod.mk.injEq] at h
        rw [← h.2.1, set_xff_host_status]
    · simp only [Option.some.injEq, Prod.mk.injEq] at h
      rw [← h.2.1, set_xff_host_status]

/-- The status invariant through the tokenizer loop. -/
theorem parse_format_aux_status (cfg : GConf) (clib : CLib)
    (hs : cfg.no_strict_status = false) :
    ∀ (fuel : Nat) (fmt str : CStr) (li : GLogItem) (perc tilde : Nat)
      (li1 : GLogItem),
      parse_format_aux cfg clib fuel fmt str li perc tilde = .ok li1 →
      (li.status = -1 ∨ is_valid_http_status li.status = true) →
      (li1.status = -1 ∨ is_valid_http_status li1.status = true) := by
  intro fuel
  induction fuel with
  | zero =>
    intro fmt str li perc tilde li1 h hinv
    simp only [parse_format_aux, Except.ok.injEq] at h
    rw [← h]
    exact hinv
  | succ fuel ih =>
    intro fmt str li perc tilde li1 h hinv
    match fmt with
    | [] =>
      simp only [parse_format_aux, Except.ok.injEq] at h
      rw [← h]
      exact hinv
    | p :: ps =>
      unfold parse_format_aux at h
      by_cases h1 : p = '%'
      · rw [if_pos h1] at h
        exact ih ps str li (perc + 1) tilde li1 h hinv
      rw [if_neg h1] at h
      by_cases h2 : p = '~' ∧ perc = 0
      · rw [if_pos h2] at h
        exact ih ps str li perc (tilde + 1) li1 h hinv
      rw [if_neg h2] at h
      by_cases h3 : str = []
      · rw [if_pos h3] at h
        simp at h
      rw [if_neg h3] at h
      by_cases h4 : str.head? = some '\n'
      · rw [if_pos h4] at h
        simp only [Except.ok.injEq] at h
        rw [← h]
        exact hinv
      rw [if_neg h4] at h
      by_cases h5 : tilde ≠ 0
      · rw [if_pos h5] at h
        by_cases h6 : p = 'h'
        · rw [if_pos h6] at h
          split at h
          · simp at h
          · rename_i res li2 str2 fmtRest heq
            by_cases hres : res = true
            · rw [if_pos hres] at h
              simp at h
            · rw [if_neg hres] at h
              have hst := find_xff_host_status clib li str (p :: ps) res li2 str2
                fmtRest heq
              refine ih (fmtRest.drop 1) str2 li2 perc 0 li1 h ?_
              rw [hst]
              exact hinv
        · rw [if_neg h6] at h
          exact ih ps str li perc 0 li1 h hinv
      rw [if_neg h5] at h
      by_cases h7 : perc ≠ 0
      · rw [if_pos h7] at h
        split at h
        · simp at h
        · rename_i li2 str2 heq
          have hst := parse_specifier_status cfg clib li str p ps str2 li2 hs heq
          refine ih ps str2 li2 0 tilde li1 h ?_
          rcases hst with hst | hst
          · rw [hst]
            exact hinv
          · right
            exact hst
      rw [if_neg h7] at h
      exact ih ps str.tail li perc tilde li1 h hinv

/-- C1 (amended): under strict status checking (`no_strict_status = false`)
a successful specifier step either leaves the status field unchanged or
stores a validated (`is_valid_http_status`) code, and consequently the
status of any record produced by a successful `parse_format` run from a
fresh record is −1 (no `%s` parsed, the initial value is never overwritten
with −1 because −1 is not a valid code) or lies in 0..=599. -/
theorem c1_status_range_under_strict :
    (∀ (cfg : GConf) (clib : CLib) (li : GLogItem) (str : CStr) (p : Char)
       (pRest str1 : CStr) (li1 : GLogItem), cfg.no_strict_status = false →
       parse_specifier cfg clib li str p pRest = .ok (li1, str1) →
       (li1.status = li.status ∨ is_valid_http_status li1.status = true))
    ∧ (∀ (cfg : GConf) (clib : CLib) (str lfmt : CStr) (li1 : GLogItem),
       cfg.no_strict_status = false →
       parse_format cfg clib init_log_item str lfmt = .ok li1 →
       (li1.status = -1 ∨ (0 ≤ li1.status ∧ li1.status ≤ 599))) := by
  constructor
  · intro cfg clib li str p pRest str1 li1 hs h
    exact parse_specifier_status cfg clib li str p pRest str1 li1 hs h
  · intro cfg clib str lfmt li1 hs h
    unfold parse_format at h
    split_ifs at h
    have := parse_format_aux_status cfg clib hs (lfmt.length + 1) lfmt str
      init_log_item 0 0 li1 h (Or.inl rfl)
    rcases this with h2 | h2
    · exact .inl h2
    · exact .inr (is_valid_bounds _ h2)

set_option maxHeartbeats 1600000 in
/-- Witness for C1: the strict-status invariant at a concrete accepted
`%s 200` step, and at a full parse of a COMMON-style line. -/
theorem c1_status_range_under_strict_witness :
    (({ init_log_item with status := 200 } : GLogItem).status = init_log_item.status ∨
      is_valid_http_status ({ init_log_item with status := 200 } : GLogItem).status = true) ∧
    (c1WitnessItem.status = -1 ∨ (0 ≤ c1WitnessItem.status ∧ c1WitnessItem.status ≤ 599)) :=
  ⟨c1_status_range_under_strict.1 cfgStrict clibFix init_log_item "200".toList 's'
     [] [] { init_log_item with status := 200 } rfl (by decide),
   c1_status_range_under_strict.2 cfgStrict clibFix "1.2.3.4 5 /x 200".toList
     "%h %d %U %s".toList c1WitnessItem rfl (by decide)⟩

set_option maxHeartbeats 1600000 in
/-- Counterexample for C1 as stated: the claim quantifies over every
configuration, but with `no_strict_status = true` the line
`1.2.3.4 5 /x 999` parses successfully under the template `%h %d %U %s`
into a record whose `%s` was parsed and whose status is 999 ∉ {−1} ∪ 0..=599. -/
theorem c1_status_999_escapes_range :
    parse_line cfgBase clibFix jfpId shortLine =
      .parsed { shortItem with agent := some "-".toList } ∧
    ({ shortItem with agent := some "-".toList } : GLogItem).status = 999 ∧
    ¬((999 : Int) = -1 ∨ (0 ≤ (999 : Int) ∧ (999 : Int) ≤ 599)) := by
  refine ⟨by decide, by decide, by decide⟩

end Goaccessfmt
